import Mathlib

/-!
Table controller of schemahero: plan / approve / execute reconciliation.

Shallow embedding of `pkg/controller/table/table_controller.go`.

* Go `error` values are `Option Error` (`none` is `nil`); a Go function returning
  `(T, error)` is an `Except Error T`.
* The controller talks to a resource store through a client.  The store is an explicit
  `Cluster` value, every client call is appended to `World.calls`, and the ways a call can
  fail for reasons other than the content of the store are given by `Env.fails`.
* Functions of the repository that live outside this file (`GetSHA`, `planConfigMap`,
  `applyConfigMap`, `planPod`, `applyPod`) and the ambient services (`config.GetConfig`,
  the client constructors, the pod log stream, the clock) are fields of `Env`.
* Timestamps are `int64` in the source and `Int` here; the field `Namespace` of an object is `ns`.
-/

namespace Schemahero

/-! ## Errors -/

/-- Go error values as the controller sees them. -/
inductive Error where
  /-- store status error with reason NotFound -/
  | notFound : Error
  /-- store status error with reason AlreadyExists -/
  | alreadyExists : Error
  /-- any other failure of a collaborator (store unreachable, stream broken, ...) -/
  | failure : Error
  /-- result of `errors.New(msg)` -/
  | new (msg : String) : Error
  /-- result of `errors.Wrap(cause, msg)` for a non-nil cause -/
  | wrap (cause : Error) (msg : String) : Error
  deriving DecidableEq, Repr

/-- Go `kuberneteserrors.IsNotFound`. -/
def IsNotFound : Error → Bool
  | .notFound => true
  | _ => false

/-- Go `errors.Wrap` of github.com/pkg/errors: wrapping `nil` gives `nil`. -/
def Wrap (err : Option Error) (msg : String) : Option Error :=
  match err with
  | none => none
  | some e => some (Error.wrap e msg)

/-! ## Data model -/

/-- Go `schemasv1alpha3.TablePlan`. -/
structure TablePlan where
  name : String
  plannedAt : Int
  approvedAt : Int
  rejectedAt : Int
  executedAt : Int
  ddl : String
  deriving DecidableEq, Repr

/-- Engine specific schema description; its content is not inspected by the controller. -/
structure SQLTableSchema where
  raw : String
  deriving DecidableEq, Repr

/-- Go `schemasv1alpha3.TableSchema`: one optional description per engine. -/
structure TableSchema where
  postgres : Option SQLTableSchema
  mysql : Option SQLTableSchema
  deriving DecidableEq, Repr

structure TableSpec where
  database : String
  schema : TableSchema
  deriving DecidableEq, Repr

structure TableStatus where
  plans : List TablePlan
  deriving DecidableEq, Repr

/-- Go `schemasv1alpha3.Table`. -/
structure Table where
  name : String
  ns : String
  spec : TableSpec
  status : TableStatus
  deriving DecidableEq, Repr

structure SecretKeyRef where
  name : String
  key : String
  deriving DecidableEq, Repr

structure ValueFrom where
  secretKeyRef : Option SecretKeyRef
  deriving DecidableEq, Repr

/-- Go `databasesv1alpha3.ValueOrValueFrom`. -/
structure ValueOrValueFrom where
  value : String
  valueFrom : Option ValueFrom
  deriving DecidableEq, Repr

structure EngineConnection where
  uri : ValueOrValueFrom
  deriving DecidableEq, Repr

/-- Go `databasesv1alpha3.DatabaseConnection`. -/
structure DatabaseConnection where
  postgres : Option EngineConnection
  mysql : Option EngineConnection
  deriving DecidableEq, Repr

/-- Go `databasesv1alpha3.Database`. -/
structure Database where
  name : String
  ns : String
  connection : DatabaseConnection
  deriving DecidableEq, Repr

/-- Go `corev1.Secret`, with the byte values of `Data` read as strings. -/
structure Secret where
  name : String
  ns : String
  data : List (String × String)
  deriving DecidableEq, Repr

/-- Go `corev1.ConfigMap`. -/
structure ConfigMap where
  name : String
  ns : String
  data : List (String × String)
  deriving DecidableEq, Repr

/-- Go `corev1.Volume`, reduced to its name and the name of its ConfigMap source (if any). -/
structure Volume where
  name : String
  configMap : Option String
  deriving DecidableEq, Repr

/-- Go `corev1.PodPhase`. -/
inductive PodPhase where
  | pending | running | succeeded | failed | unknown
  deriving DecidableEq, Repr

/-- Go `corev1.Pod`, reduced to the fields the controller reads. -/
structure Pod where
  name : String
  ns : String
  labels : List (String × String)
  volumes : List Volume
  phase : PodPhase
  deriving DecidableEq, Repr

/-- Go `reconcile.Result`; `requeueAfter` is a `time.Duration` in nanoseconds. -/
structure Result where
  requeue : Bool
  requeueAfter : Int
  deriving DecidableEq, Repr

/-- Go `reconcile.Result{}`. -/
def Result.empty : Result := { requeue := false, requeueAfter := 0 }

/-- Go `time.Second`, in nanoseconds. -/
def Second : Int := 1000000000

/-! ## The resource store and the calls made to it

The client of the store answers a `Get`, `Create`, `Update` or `Delete` of an object named by
kind, namespace and name with the object, with NotFound or AlreadyExists, or with a failure of
its own.  Objects are kept in lists and looked up by namespace and name. -/

/-- Content of the resource store. -/
structure Cluster where
  tables : List Table
  databases : List Database
  secrets : List Secret
  configMaps : List ConfigMap
  pods : List Pod
  deriving DecidableEq, Repr

/-- Calls the controller makes to its collaborators, in the order of `World.calls`. -/
inductive Call where
  | getDatabase (ns name : String)
  | getSecret (ns name : String)
  | getConfigMap (ns name : String)
  | getPod (ns name : String)
  | getTable (ns name : String)
  | getLogs (ns name : String)
  | createConfigMap (cm : ConfigMap)
  | createPod (p : Pod)
  | updateTable (t : Table)
  | deletePod (ns name : String)
  | deleteConfigMap (ns name : String)
  | planConfigMap (t : Table)
  | applyConfigMap (t : Table) (p : TablePlan)
  | planPod (t : Table)
  | applyPod (t : Table)
  deriving DecidableEq, Repr

/-- Calls that write to the store. -/
def Call.isMutation : Call → Bool
  | .createConfigMap _ => true
  | .createPod _ => true
  | .updateTable _ => true
  | .deletePod _ _ => true
  | .deleteConfigMap _ _ => true
  | _ => false

/-- Calls that build the artifacts of a plan job. -/
def Call.isPlanMode : Call → Bool
  | .planConfigMap _ => true
  | .planPod _ => true
  | _ => false

/-- Store content together with the history of calls (oldest first). -/
structure World where
  cluster : Cluster
  calls : List Call
  deriving DecidableEq, Repr

/-- Everything the controller depends on besides the store content. -/
structure Env where
  /-- the store access of this call fails for a reason of its own -/
  fails : Call → Bool
  /-- Go `config.GetConfig()` -/
  getConfig : Option Error
  /-- Go `kubernetes.NewForConfig(cfg)` -/
  newKubernetesClient : Option Error
  /-- Go `schemasclientv1alpha3.NewForConfig(cfg)` -/
  newSchemasClient : Option Error
  /-- Go `databasesclientv1alpha3.NewForConfig(cfg)` -/
  newDatabasesClient : Option Error
  /-- the log stream of a pod: opening it may fail, and so may copying it -/
  podLogs : String → String → Except Error (Except Error String)
  /-- Go `time.Now().Unix()` -/
  now : Int
  /-- Go `Table.GetSHA`, the fingerprint -/
  getSHA : Table → Except Error String
  planConfigMap : Database → Table → Except Error ConfigMap
  applyConfigMap : Database → Table → TablePlan → Except Error ConfigMap
  planPod : Database → Table → Except Error Pod
  applyPod : Database → Table → Except Error Pod

/-- The world after one more call. -/
def World.record (w : World) (c : Call) : World :=
  { w with calls := w.calls ++ [c] }

/-- The stored Table of this namespace and name; likewise for the other kinds below. -/
def Cluster.findTable (c : Cluster) (ns name : String) : Option Table :=
  c.tables.find? (fun o => o.ns == ns && o.name == name)

def Cluster.findDatabase (c : Cluster) (ns name : String) : Option Database :=
  c.databases.find? (fun o => o.ns == ns && o.name == name)

def Cluster.findSecret (c : Cluster) (ns name : String) : Option Secret :=
  c.secrets.find? (fun o => o.ns == ns && o.name == name)

def Cluster.findConfigMap (c : Cluster) (ns name : String) : Option ConfigMap :=
  c.configMaps.find? (fun o => o.ns == ns && o.name == name)

def Cluster.findPod (c : Cluster) (ns name : String) : Option Pod :=
  c.pods.find? (fun o => o.ns == ns && o.name == name)

/-- Outcome of a read of the store: the access fails on its own, or it reports the object
or NotFound. -/
def readOutcome {α : Type} (env : Env) (call : Call) (found : Option α) : Except Error α :=
  if env.fails call then .error .failure
  else match found with
    | some o => .ok o
    | none => .error .notFound

/-- Store read `Get` of a Database. -/
def getDatabase (env : Env) (w : World) (ns name : String) : World × Except Error Database :=
  (w.record (.getDatabase ns name),
    readOutcome env (.getDatabase ns name) (w.cluster.findDatabase ns name))

/-- Store read `Get` of a Secret. -/
def getSecret (env : Env) (w : World) (ns name : String) : World × Except Error Secret :=
  (w.record (.getSecret ns name),
    readOutcome env (.getSecret ns name) (w.cluster.findSecret ns name))

/-- Store read `Get` of a ConfigMap. -/
def getConfigMap (env : Env) (w : World) (ns name : String) : World × Except Error ConfigMap :=
  (w.record (.getConfigMap ns name),
    readOutcome env (.getConfigMap ns name) (w.cluster.findConfigMap ns name))

/-- Store read `Get` of a Pod. -/
def getPod (env : Env) (w : World) (ns name : String) : World × Except Error Pod :=
  (w.record (.getPod ns name), readOutcome env (.getPod ns name) (w.cluster.findPod ns name))

/-- Store read `Get` of a Table. -/
def getTable (env : Env) (w : World) (ns name : String) : World × Except Error Table :=
  (w.record (.getTable ns name),
    readOutcome env (.getTable ns name) (w.cluster.findTable ns name))

/-- Store write `Create` of a ConfigMap. -/
def createConfigMap (env : Env) (w : World) (cm : ConfigMap) : World × Option Error :=
  if env.fails (.createConfigMap cm) then ((w.record (.createConfigMap cm)), some .failure)
  else match w.cluster.findConfigMap cm.ns cm.name with
    | some _ => (w.record (.createConfigMap cm), some .alreadyExists)
    | none =>
      ({ cluster := { w.cluster with configMaps := w.cluster.configMaps ++ [cm] },
         calls := w.calls ++ [.createConfigMap cm] }, none)

/-- Store write `Create` of a Pod. -/
def createPod (env : Env) (w : World) (p : Pod) : World × Option Error :=
  if env.fails (.createPod p) then ((w.record (.createPod p)), some .failure)
  else match w.cluster.findPod p.ns p.name with
    | some _ => (w.record (.createPod p), some .alreadyExists)
    | none =>
      ({ cluster := { w.cluster with pods := w.cluster.pods ++ [p] },
         calls := w.calls ++ [.createPod p] }, none)

/-- Store write `Update` of a Table: the stored object of the same namespace and name is
replaced. -/
def updateTable (env : Env) (w : World) (t : Table) : World × Option Error :=
  if env.fails (.updateTable t) then ((w.record (.updateTable t)), some .failure)
  else match w.cluster.findTable t.ns t.name with
    | none => (w.record (.updateTable t), some .notFound)
    | some _ =>
      ({ cluster := { w.cluster with
           tables := w.cluster.tables.map
             (fun o => if o.ns == t.ns && o.name == t.name then t else o) },
         calls := w.calls ++ [.updateTable t] }, none)

/-- Store write `Delete` of a Pod. -/
def deletePod (env : Env) (w : World) (ns name : String) : World × Option Error :=
  if env.fails (.deletePod ns name) then ((w.record (.deletePod ns name)), some .failure)
  else match w.cluster.findPod ns name with
    | none => (w.record (.deletePod ns name), some .notFound)
    | some _ =>
      ({ cluster := { w.cluster with
           pods := w.cluster.pods.filter (fun o => !(o.ns == ns && o.name == name)) },
         calls := w.calls ++ [.deletePod ns name] }, none)

/-- Store write `Delete` of a ConfigMap. -/
def deleteConfigMap (env : Env) (w : World) (ns name : String) : World × Option Error :=
  if env.fails (.deleteConfigMap ns name) then
    ((w.record (.deleteConfigMap ns name)), some .failure)
  else match w.cluster.findConfigMap ns name with
    | none => (w.record (.deleteConfigMap ns name), some .notFound)
    | some _ =>
      ({ cluster := { w.cluster with
           configMaps :=
             w.cluster.configMaps.filter (fun o => !(o.ns == ns && o.name == name)) },
         calls := w.calls ++ [.deleteConfigMap ns name] }, none)

/-! ## The controller -/

/-- Go `readConnectionURI` (lines 480-508). -/
def readConnectionURI (env : Env) (w : World) (ns : String) (valueOrValueFrom : ValueOrValueFrom) :
    World × Except Error String :=
  if valueOrValueFrom.value != "" then (w, .ok valueOrValueFrom.value)
  else match valueOrValueFrom.valueFrom with
    | none => (w, .error (.new "value and valueFrom cannot both be nil/empty"))
    | some valueFrom =>
      match valueFrom.secretKeyRef with
      | some ref =>
        match getSecret env w ns ref.name with
        | (w1, .error err) =>
          if IsNotFound err then (w1, .error (.new "table secret not found"))
          else (w1, .error (.wrap err "failed to get existing connection secret"))
        | (w1, .ok secret) => (w1, .ok ((secret.data.lookup ref.key).getD ""))
      | none => (w, .error (.new "unable to find supported valueFrom"))

/-- Go `getDatabaseSpec` (lines 332-372): `.ok none` is the result `(nil, nil)`. -/
def getDatabaseSpec (env : Env) (w : World) (ns name : String) :
    World × Except Error (Option Database) :=
  match env.getConfig with
  | some err => (w, .error err)
  | none =>
    match env.newDatabasesClient with
    | some err => (w, .error err)
    | none =>
      match getDatabase env w ns name with
      | (w1, .error err) =>
        if IsNotFound err then (w1, .ok none) else (w1, .error err)
      | (w1, .ok database) =>
        match database.connection.postgres with
        | some postgres =>
          match readConnectionURI env w1 database.ns postgres.uri with
          | (w2, .error _) => (w2, .ok none)
          | (w2, .ok _) => (w2, .ok (some database))
        | none =>
          match database.connection.mysql with
          | some mysql =>
            match readConnectionURI env w1 database.ns mysql.uri with
            | (w2, .error _) => (w2, .ok none)
            | (w2, .ok _) => (w2, .ok (some database))
          | none => (w1, .ok (some database))

/-- Go `checkDatabaseTypeMatches` (lines 374-382). -/
def checkDatabaseTypeMatches (connection : DatabaseConnection) (tableSchema : TableSchema) :
    Bool :=
  if connection.postgres.isSome then tableSchema.postgres.isSome
  else if connection.mysql.isSome then tableSchema.mysql.isSome
  else false

/-- Go `ensureTableConfigMap` (lines 408-442); `plan = none` is the nil plan. -/
def ensureTableConfigMap (env : Env) (w : World) (database : Database) (table : Table)
    (plan : Option TablePlan) : World × Option Error :=
  let desired : World × Except Error ConfigMap :=
    match plan with
    | none => (w.record (.planConfigMap table), env.planConfigMap database table)
    | some p => (w.record (.applyConfigMap table p), env.applyConfigMap database table p)
  match desired with
  | (w1, .error err) => (w1, some (.wrap err "failed to get config map object"))
  | (w1, .ok desiredConfigMap) =>
    match getConfigMap env w1 desiredConfigMap.ns desiredConfigMap.name with
    | (w2, .error err) =>
      if IsNotFound err then
        match createConfigMap env w2 desiredConfigMap with
        | (w3, some err1) => (w3, some (.wrap err1 "failed to create configmap"))
        | (w3, none) => (w3, Wrap none "failed to get existing configmap")
      else (w2, Wrap (some err) "failed to get existing configmap")
    | (w2, .ok _) => (w2, none)

/-- Go `ensureTablePod` (lines 444-478). -/
def ensureTablePod (env : Env) (w : World) (database : Database) (table : Table)
    (isPlan : Bool) : World × Option Error :=
  let desired : World × Except Error Pod :=
    if isPlan then (w.record (.planPod table), env.planPod database table)
    else (w.record (.applyPod table), env.applyPod database table)
  match desired with
  | (w1, .error err) => (w1, some (.wrap err "failed to get pod object"))
  | (w1, .ok desiredPod) =>
    match getPod env w1 desiredPod.ns desiredPod.name with
    | (w2, .error err) =>
      if IsNotFound err then
        match createPod env w2 desiredPod with
        | (w3, some err1) => (w3, some (.wrap err1 "failed to create table migration pod"))
        | (w3, none) => (w3, none)
      else (w2, Wrap (some err) "failed to get existing pod object")
    | (w2, .ok _) => (w2, none)

/-- Go `plan` (lines 384-394). -/
def plan (env : Env) (w : World) (database : Database) (table : Table) : World × Option Error :=
  match ensureTableConfigMap env w database table none with
  | (w1, some err) => (w1, some err)
  | (w1, none) =>
    match ensureTablePod env w1 database table true with
    | (w2, some err) => (w2, some err)
    | (w2, none) => (w2, none)

/-- Go `deploy` (lines 396-406). -/
def deploy (env : Env) (w : World) (database : Database) (table : Table) (p : TablePlan) :
    World × Option Error :=
  match ensureTableConfigMap env w database table (some p) with
  | (w1, some err) => (w1, some err)
  | (w1, none) =>
    match ensureTablePod env w1 database table false with
    | (w2, some err) => (w2, some err)
    | (w2, none) => (w2, none)

/-- Condition of the first loop of `reconcileInstance` (line 165). -/
def dueForExecution (p : TablePlan) : Bool :=
  decide (p.approvedAt > 0) && p.executedAt == 0

/-- Go `reconcileInstance` (lines 137-193).  Each of the two `for` loops returns at the first
plan that meets its condition. -/
def reconcileInstance (env : Env) (w : World) (inst : Table) : World × Result × Option Error :=
  match getDatabaseSpec env w inst.ns inst.spec.database with
  | (w1, .error err) => (w1, Result.empty, some (.wrap err "failed to get database spec"))
  | (w1, .ok none) => (w1, { requeue := true, requeueAfter := Second * 10 }, none)
  | (w1, .ok (some database)) =>
    if !checkDatabaseTypeMatches database.connection inst.spec.schema then
      (w1, Result.empty, some (.new "unable to deploy table to connection of different type"))
    else
      match inst.status.plans.find? dueForExecution with
      | some p =>
        match deploy env w1 database inst p with
        | (w2, some err) =>
          (w2, Result.empty, some (.wrap err "failed to deploy planned migration"))
        | (w2, none) => (w2, Result.empty, none)
      | none =>
        match env.getSHA inst with
        | .error err => (w1, Result.empty, some (.wrap err "failed to get table sha"))
        | .ok tableSHA =>
          if inst.status.plans.any (fun p => p.name == tableSHA) then
            (w1, Result.empty, none)
          else
            match plan env w1 database inst with
            | (w2, some err) =>
              (w2, Result.empty, some (.wrap err "failed to schedule plan phase"))
            | (w2, none) => (w2, Result.empty, none)

/-- Go `strings.Replace(s, old, new, -1)` for a non-empty `old`, on the characters of the
strings: the occurrences of `old` are found from left to right without overlap.  The first
argument counts the characters of a matched `old` still to be skipped. -/
def replaceAll (old new : List Char) : Nat → List Char → List Char
  | _, [] => []
  | skip + 1, _ :: cs => replaceAll old new skip cs
  | 0, c :: cs =>
    if old.isPrefixOf (c :: cs) then new ++ replaceAll old new (old.length - 1) cs
    else c :: replaceAll old new 0 cs

/-- The output normalizer of `reconcilePod` (line 242):
`strings.Replace(out, "\n\n", "\n", -1)`. -/
def normalize (out : String) : String :=
  String.mk (replaceAll "\n\n".data "\n".data 0 out.data)

/-- The loop of `reconcilePod` that reads the name of the config map (lines 301-306): the
last volume named `specs` with a ConfigMap source wins, and the name is empty without one. -/
def configMapName (volumes : List Volume) : String :=
  volumes.foldl
    (fun acc volume =>
      if volume.name == "specs" then
        match volume.configMap with
        | some n => n
        | none => acc
      else acc)
    ""

/-- The block `if role == "plan"` of `reconcilePod` (lines 213-293).  The second component
is `some r` when `reconcilePod` returns `r` from inside the block, and `none` when control
leaves the block and goes on to the cleanup. -/
def harvestPlan (env : Env) (w : World) (pod : Pod) :
    World × Option (Result × Option Error) :=
  match env.getConfig with
  | some err => (w, some (Result.empty, some (.wrap err "failed to get config")))
  | none =>
    match env.newKubernetesClient with
    | some err => (w, some (Result.empty, some (.wrap err "failed to create client")))
    | none =>
      match env.podLogs pod.ns pod.name with
      | .error err =>
        (w.record (.getLogs pod.ns pod.name),
          some (Result.empty, some (.wrap err "failed to open log stream")))
      | .ok (.error err) =>
        (w.record (.getLogs pod.ns pod.name),
          some (Result.empty, some (.wrap err "failed to copy logs too buffer")))
      | .ok (.ok raw) =>
        match pod.labels.lookup "schemahero-name" with
        | none => (w.record (.getLogs pod.ns pod.name), some (Result.empty, none))
        | some tableName =>
          match pod.labels.lookup "schemahero-namespace" with
          | none => (w.record (.getLogs pod.ns pod.name), some (Result.empty, none))
          | some tableNamespace =>
            match env.newSchemasClient with
            | some err =>
              (w.record (.getLogs pod.ns pod.name),
                some (Result.empty, some (.wrap err "failed to create schema client")))
            | none =>
              match getTable env (w.record (.getLogs pod.ns pod.name))
                  tableNamespace tableName with
              | (w2, .error err) =>
                (w2, some (Result.empty, some (.wrap err "failed to get existing table")))
              | (w2, .ok table) =>
                match env.getSHA table with
                | .error err =>
                  (w2, some (Result.empty, some (.wrap err "failed to get sha of table")))
                | .ok tableSHA =>
                  match updateTable env w2
                      { table with
                        status := { plans := table.status.plans ++
                          [{ name := tableSHA, ddl := normalize raw, plannedAt := env.now,
                             approvedAt := 0, rejectedAt := 0, executedAt := 0 }] } } with
                  | (w3, some err) =>
                    (w3, some (Result.empty,
                      some (.wrap err "failed to write plan to table status")))
                  | (w3, none) => (w3, none)

/-- The cleanup of `reconcilePod` (lines 295-316): delete the pod, look the config map up
by the name read from the volumes, delete the config map that was found. -/
def cleanupJob (env : Env) (w : World) (pod : Pod) : World × Result × Option Error :=
  match deletePod env w pod.ns pod.name with
  | (w1, some err) => (w1, Result.empty, some err)
  | (w1, none) =>
    match getConfigMap env w1 pod.ns (configMapName pod.volumes) with
    | (w2, .error err) => (w2, Result.empty, some err)
    | (w2, .ok configMap) =>
      match deleteConfigMap env w2 configMap.ns configMap.name with
      | (w3, some err) => (w3, Result.empty, some err)
      | (w3, none) => (w3, Result.empty, none)

/-- Go `reconcilePod` (lines 195-320). -/
def reconcilePod (env : Env) (w : World) (pod : Pod) : World × Result × Option Error :=
  match pod.labels.lookup "schemahero-role" with
  | none => (w, Result.empty, none)
  | some role =>
    if role != "table" && role != "plan" then (w, Result.empty, none)
    else if pod.phase == PodPhase.succeeded then
      if role == "plan" then
        match harvestPlan env w pod with
        | (w1, some r) => (w1, r)
        | (w1, none) => cleanupJob env w1 pod
      else cleanupJob env w pod
    else (w, Result.empty, none)


/-! ## Vocabulary of the statements -/

/-- Reads of a collaborator. -/
def Call.isRead : Call → Bool
  | .getDatabase _ _ => true
  | .getSecret _ _ => true
  | .getConfigMap _ _ => true
  | .getPod _ _ => true
  | .getTable _ _ => true
  | .getLogs _ _ => true
  | _ => false

/-- Calls to the resource store or to the log stream, as opposed to the calls that build
the desired objects. -/
def Call.isStore (c : Call) : Bool := c.isRead || c.isMutation

/-- The call that starts an apply job: building the apply config map of a plan. -/
def Call.isApplyConfigMap : Call → Bool
  | .applyConfigMap _ _ => true
  | _ => false

/-- Writes of a Table. -/
def Call.isUpdateTable : Call → Bool
  | .updateTable _ => true
  | _ => false

/-- The object `ensureTableConfigMap` wants to exist (lines 411-427). -/
def desiredConfigMap (env : Env) (database : Database) (table : Table)
    (plan : Option TablePlan) : Except Error ConfigMap :=
  match plan with
  | none => env.planConfigMap database table
  | some p => env.applyConfigMap database table p

/-- The call by which `ensureTableConfigMap` builds the desired object. -/
def configMapBuilderCall (table : Table) (plan : Option TablePlan) : Call :=
  match plan with
  | none => .planConfigMap table
  | some p => .applyConfigMap table p

/-- The object `ensureTablePod` wants to exist (lines 447-461). -/
def desiredPod (env : Env) (database : Database) (table : Table) (isPlan : Bool) :
    Except Error Pod :=
  if isPlan then env.planPod database table else env.applyPod database table

/-- The call by which `ensureTablePod` builds the desired object. -/
def podBuilderCall (table : Table) (isPlan : Bool) : Call :=
  if isPlan then .planPod table else .applyPod table

/-- The names of the plans of a Table, in sequence order. -/
def planNames (t : Table) : List String := t.status.plans.map TablePlan.name

/-- The world after `n` reconciliations of the same Table object. -/
def reconcileTimes (env : Env) (inst : Table) : Nat → World → World
  | 0, w => w
  | n + 1, w => reconcileTimes env inst n (reconcileInstance env w inst).1

deriving instance DecidableEq for Except

/-! ## Concrete inputs -/

/-- An environment in which every collaborator works. -/
def env0 : Env :=
  { fails := fun _ => false
    getConfig := none
    newKubernetesClient := none
    newSchemasClient := none
    newDatabasesClient := none
    podLogs := fun _ _ => .ok (.ok "CREATE TABLE t1 (id int);\n")
    now := 1600000000
    getSHA := fun t =>
      .ok (match t.spec.schema.postgres with
        | some s => s.raw
        | none => "")
    planConfigMap := fun _ t => .ok { name := t.name ++ "-plan", ns := t.ns, data := [] }
    applyConfigMap := fun _ t p =>
      .ok { name := t.name ++ "-apply", ns := t.ns, data := [("ddl", p.ddl)] }
    planPod := fun _ t =>
      .ok { name := t.name ++ "-plan", ns := t.ns,
            labels := [("schemahero-role", "plan"), ("schemahero-name", t.name),
                       ("schemahero-namespace", t.ns)],
            volumes := [{ name := "specs", configMap := some (t.name ++ "-plan") }],
            phase := .pending }
    applyPod := fun _ t =>
      .ok { name := t.name ++ "-apply", ns := t.ns,
            labels := [("schemahero-role", "table"), ("schemahero-name", t.name),
                       ("schemahero-namespace", t.ns)],
            volumes := [{ name := "specs", configMap := some (t.name ++ "-apply") }],
            phase := .pending } }

/-- The environment `env0` with a store whose reads of secrets fail. -/
def envSecretDown : Env :=
  { env0 with
    fails := fun c =>
      match c with
      | .getSecret _ _ => true
      | _ => false }

/-- A Postgres database with an inline connection URI. -/
def db1 : Database :=
  { name := "db1", ns := "default",
    connection := { postgres := some { uri := { value := "postgres://x", valueFrom := none } },
                    mysql := none } }

/-- The reference to the key `uri` of the secret `db2-secret`. -/
def db2Ref : SecretKeyRef := { name := "db2-secret", key := "uri" }

/-- A connection without inline URI that refers to `db2Ref`. -/
def db2Connection : EngineConnection :=
  { uri := { value := "", valueFrom := some { secretKeyRef := some db2Ref } } }

/-- A Postgres database whose connection URI is kept in the secret `db2-secret`. -/
def db2 : Database :=
  { name := "db2", ns := "default",
    connection := { postgres := some db2Connection, mysql := none } }

def schema1 : TableSchema := { postgres := some { raw := "abc123" }, mysql := none }

/-- The plan of fingerprint `abc123`, approved and not executed. -/
def planApproved : TablePlan :=
  { name := "abc123", plannedAt := 10, approvedAt := 20, rejectedAt := 0, executedAt := 0,
    ddl := "CREATE TABLE t1 (id int);\n" }

/-- The plan of fingerprint `abc123`, not approved. -/
def planPending : TablePlan :=
  { name := "abc123", plannedAt := 10, approvedAt := 0, rejectedAt := 0, executedAt := 0,
    ddl := "CREATE TABLE t1 (id int);\n" }

/-- A plan of an older fingerprint whose approval timestamp is negative. -/
def planNegative : TablePlan :=
  { name := "old", plannedAt := 10, approvedAt := -1, rejectedAt := 0, executedAt := 0,
    ddl := "CREATE TABLE t1 (id int);\n" }

def tableWith (database : String) (plans : List TablePlan) : Table :=
  { name := "t1", ns := "default",
    spec := { database := database, schema := schema1 },
    status := { plans := plans } }

def worldWith (tables : List Table) (secrets : List Secret) (configMaps : List ConfigMap)
    (pods : List Pod) : World :=
  { cluster := { tables := tables, databases := [db1, db2], secrets := secrets,
                 configMaps := configMaps, pods := pods },
    calls := [] }

/-- The succeeded plan pod of the Table `t1`, as `env0.planPod` builds it. -/
def podPlanDone : Pod :=
  { name := "t1-plan", ns := "default",
    labels := [("schemahero-role", "plan"), ("schemahero-name", "t1"),
               ("schemahero-namespace", "default")],
    volumes := [{ name := "specs", configMap := some "t1-plan" }],
    phase := .succeeded }

/-- A succeeded pod of role `plan` without the labels that name its Table. -/
def podPlanUnlabelled : Pod :=
  { name := "t1-plan", ns := "default",
    labels := [("schemahero-role", "plan")],
    volumes := [{ name := "specs", configMap := some "t1-plan" }],
    phase := .succeeded }

/-- The succeeded apply pod of the Table `t1`, as `env0.applyPod` builds it. -/
def podApplyDone : Pod :=
  { name := "t1-apply", ns := "default",
    labels := [("schemahero-role", "table"), ("schemahero-name", "t1"),
               ("schemahero-namespace", "default")],
    volumes := [{ name := "specs", configMap := some "t1-apply" }],
    phase := .succeeded }

def configMapPlan : ConfigMap := { name := "t1-plan", ns := "default", data := [] }

def configMapApply : ConfigMap :=
  { name := "t1-apply", ns := "default", data := [("ddl", "CREATE TABLE t1 (id int);\n")] }

/-- The plan the harvester appends under `env0` for the Table `t1`. -/
def planHarvested : TablePlan :=
  { name := "abc123", plannedAt := 1600000000, approvedAt := 0, rejectedAt := 0,
    executedAt := 0, ddl := "CREATE TABLE t1 (id int);\n" }

/-- The Table the harvester writes back (lines 274-282): the Table it read, with one plan
appended. -/
def harvestedTable (env : Env) (table : Table) (tableSHA raw : String) : Table :=
  { table with
    status := { plans := table.status.plans ++
      [{ name := tableSHA, ddl := normalize raw, plannedAt := env.now,
         approvedAt := 0, rejectedAt := 0, executedAt := 0 }] } }

/-- A pod that does not belong to the controller: no `schemahero-role` label. -/
def podForeign : Pod :=
  { name := "web", ns := "default", labels := [("app", "web")], volumes := [],
    phase := .succeeded }

/-- A succeeded pod whose role is neither `table` nor `plan`. -/
def podOtherRole : Pod :=
  { name := "t1-other", ns := "default", labels := [("schemahero-role", "database")],
    volumes := [{ name := "specs", configMap := some "t1-plan" }], phase := .succeeded }

/-- The plan pod of the Table `t1` while it is still running. -/
def podPlanRunning : Pod := { podPlanDone with phase := .running }

/-- A credential descriptor with the inline value `v` and a reference as well. -/
def inlineAndReference : ValueOrValueFrom :=
  { value := "v", valueFrom := some { secretKeyRef := some db2Ref } }

/-! # Theorems -/

/-! ## Lemmas on lists and on the kinds of calls -/

/-- A filter that rejects every new call sees the old history only. -/
theorem filter_append_rejected (f : Call → Bool) (old rest : List Call)
    (h : ∀ x ∈ rest, f x = false) : (old ++ rest).filter f = old.filter f := by
  rw [List.filter_append]
  have : rest.filter f = [] := by
    rw [List.filter_eq_nil_iff]
    intro x hx
    simp [h x hx]
  rw [this, List.append_nil]

theorem filter_rejected (f : Call → Bool) (rest : List Call)
    (h : ∀ x ∈ rest, f x = false) : rest.filter f = [] := by
  rw [List.filter_eq_nil_iff]
  intro x hx
  simp [h x hx]

theorem isRead_not_isMutation (c : Call) (h : c.isRead = true) : c.isMutation = false := by
  cases c <;> simp_all [Call.isRead, Call.isMutation]

theorem isStore_not_isApplyConfigMap (c : Call) (h : c.isStore = true) :
    c.isApplyConfigMap = false := by
  cases c <;> simp_all [Call.isStore, Call.isRead, Call.isMutation, Call.isApplyConfigMap]

theorem isStore_not_isPlanMode (c : Call) (h : c.isStore = true) : c.isPlanMode = false := by
  cases c <;> simp_all [Call.isStore, Call.isRead, Call.isMutation, Call.isPlanMode]

theorem isRead_isStore (c : Call) (h : c.isRead = true) : c.isStore = true := by
  simp [Call.isStore, h]

theorem find_filter_not {α : Type} (key : α → Bool) (l : List α) :
    (l.filter (fun o => !key o)).find? key = none := by
  rw [List.find?_eq_none]
  intro x hx
  simp only [List.mem_filter, Bool.not_eq_true'] at hx
  simp [hx.2]

theorem find_map_replace {α : Type} (key : α → Bool) (l : List α) (t t' : α)
    (hfind : l.find? key = some t) (hkey : key t' = true) :
    (l.map (fun o => if key o then t' else o)).find? key = some t' := by
  induction l with
  | nil => simp at hfind
  | cons a l ih =>
    by_cases ha : key a = true
    · simp [List.find?_cons, ha, hkey]
    · simp only [List.find?_cons, ha] at hfind
      simp only [List.map_cons, ha, Bool.false_eq_true, if_false, List.find?_cons]
      exact ih hfind

/-- The first plan of a sequence that is due for execution is the one `List.find?` returns. -/
theorem find_first_due (pre post : List TablePlan) (p : TablePlan)
    (hpre : ∀ q ∈ pre, ¬ (q.approvedAt > 0 ∧ q.executedAt = 0))
    (hp : p.approvedAt > 0 ∧ p.executedAt = 0) :
    (pre ++ p :: post).find? dueForExecution = some p := by
  induction pre with
  | nil => simp [dueForExecution, hp.1, hp.2]
  | cons q pre ih =>
    have hq : dueForExecution q = false := by
      have := hpre q (List.mem_cons_self _ _)
      simp only [dueForExecution, Bool.and_eq_false_imp, decide_eq_true_eq, beq_eq_false_iff_ne]
      intro h1 h2
      exact this ⟨h1, h2⟩
    simp only [List.cons_append, List.find?_cons, hq]
    exact ih (fun q hq => hpre q (List.mem_cons_of_mem _ hq))

theorem find_none_due (plans : List TablePlan)
    (h : ∀ q ∈ plans, ¬ (q.approvedAt > 0 ∧ q.executedAt = 0)) :
    plans.find? dueForExecution = none := by
  rw [List.find?_eq_none]
  intro q hq hd
  simp only [dueForExecution, Bool.and_eq_true, decide_eq_true_eq, beq_iff_eq] at hd
  exact h q hq hd

/-! ## Lemmas on the readiness gate -/

theorem readOutcome_ok {α : Type} (env : Env) (call : Call) (found : Option α) (o : α)
    (h : readOutcome env call found = .ok o) : found = some o ∧ env.fails call = false := by
  unfold readOutcome at h
  by_cases hf : env.fails call = true
  · simp [hf] at h
  · rcases found with _ | a
    · simp [hf] at h
    · simp only [hf, Bool.false_eq_true, if_false, Except.ok.injEq] at h
      exact ⟨by rw [h], by simpa using hf⟩

theorem readConnectionURI_frame (env : Env) (w : World) (ns : String) (v : ValueOrValueFrom) :
    readConnectionURI env w ns v
      = (⟨w.cluster, w.calls ++ (readConnectionURI env ⟨w.cluster, []⟩ ns v).1.calls⟩,
         (readConnectionURI env ⟨w.cluster, []⟩ ns v).2) := by
  unfold readConnectionURI
  obtain ⟨value, valueFrom⟩ := v
  by_cases hv : value = ""
  · simp only [hv, bne_self_eq_false, Bool.false_eq_true, if_false]
    rcases valueFrom with _ | ⟨_ | ref⟩
    · simp
    · simp
    · simp only [getSecret, World.record]
      generalize readOutcome env (Call.getSecret ns ref.name) (w.cluster.findSecret ns ref.name)
        = r
      rcases r with e | s
      · by_cases he : IsNotFound e = true <;> simp [he]
      · simp
  · simp [hv]

theorem readConnectionURI_reads (env : Env) (c : Cluster) (ns : String) (v : ValueOrValueFrom) :
    ∀ x ∈ (readConnectionURI env ⟨c, []⟩ ns v).1.calls, x.isRead = true := by
  unfold readConnectionURI
  obtain ⟨value, valueFrom⟩ := v
  by_cases hv : value = ""
  · simp only [hv, bne_self_eq_false, Bool.false_eq_true, if_false]
    rcases valueFrom with _ | ⟨_ | ref⟩
    · simp
    · simp
    · simp only [getSecret, World.record]
      generalize readOutcome env (Call.getSecret ns ref.name) (Cluster.findSecret c ns ref.name)
        = r
      rcases r with e | s
      · by_cases he : IsNotFound e = true <;> simp [he, Call.isRead]
      · simp [Call.isRead]
  · simp [hv]

theorem getDatabaseSpec_frame (env : Env) (w : World) (ns name : String) :
    getDatabaseSpec env w ns name
      = (⟨w.cluster, w.calls ++ (getDatabaseSpec env ⟨w.cluster, []⟩ ns name).1.calls⟩,
         (getDatabaseSpec env ⟨w.cluster, []⟩ ns name).2) := by
  unfold getDatabaseSpec
  generalize env.getConfig = g
  rcases g with _ | e
  · generalize env.newDatabasesClient = g
    rcases g with _ | e
    · simp only [getDatabase, World.record]
      generalize readOutcome env (Call.getDatabase ns name) (w.cluster.findDatabase ns name) = r
      rcases r with e | ⟨dname, dns, _ | pg, _ | my⟩
      · by_cases he : IsNotFound e = true <;> simp [he]
      · simp
      · simp only [List.nil_append]
        rw [readConnectionURI_frame env ⟨w.cluster, w.calls ++ [Call.getDatabase ns name]⟩,
          readConnectionURI_frame env ⟨w.cluster, [Call.getDatabase ns name]⟩]
        generalize (readConnectionURI env ⟨w.cluster, []⟩ dns my.uri) = q
        rcases q with ⟨q1, e | s⟩ <;> simp
      · simp only [List.nil_append]
        rw [readConnectionURI_frame env ⟨w.cluster, w.calls ++ [Call.getDatabase ns name]⟩,
          readConnectionURI_frame env ⟨w.cluster, [Call.getDatabase ns name]⟩]
        generalize (readConnectionURI env ⟨w.cluster, []⟩ dns pg.uri) = q
        rcases q with ⟨q1, e | s⟩ <;> simp
      · simp only [List.nil_append]
        rw [readConnectionURI_frame env ⟨w.cluster, w.calls ++ [Call.getDatabase ns name]⟩,
          readConnectionURI_frame env ⟨w.cluster, [Call.getDatabase ns name]⟩]
        generalize (readConnectionURI env ⟨w.cluster, []⟩ dns pg.uri) = q
        rcases q with ⟨q1, e | s⟩ <;> simp
    · simp
  · simp

theorem getDatabaseSpec_reads (env : Env) (c : Cluster) (ns name : String) :
    ∀ x ∈ (getDatabaseSpec env ⟨c, []⟩ ns name).1.calls, x.isRead = true := by
  unfold getDatabaseSpec
  generalize env.getConfig = g
  rcases g with _ | e
  · generalize env.newDatabasesClient = g
    rcases g with _ | e
    · simp only [getDatabase, World.record]
      generalize readOutcome env (Call.getDatabase ns name) (Cluster.findDatabase c ns name) = r
      rcases r with e | ⟨dname, dns, _ | pg, _ | my⟩
      · by_cases he : IsNotFound e = true <;> simp [he, Call.isRead]
      · simp [Call.isRead]
      · simp only [List.nil_append]
        rw [readConnectionURI_frame env ⟨c, [Call.getDatabase ns name]⟩]
        have := readConnectionURI_reads env c dns my.uri
        generalize (readConnectionURI env ⟨c, []⟩ dns my.uri) = q at this
        rcases q with ⟨q1, e | s⟩ <;> simpa [Call.isRead] using this
      · simp only [List.nil_append]
        rw [readConnectionURI_frame env ⟨c, [Call.getDatabase ns name]⟩]
        have := readConnectionURI_reads env c dns pg.uri
        generalize (readConnectionURI env ⟨c, []⟩ dns pg.uri) = q at this
        rcases q with ⟨q1, e | s⟩ <;> simpa [Call.isRead] using this
      · simp only [List.nil_append]
        rw [readConnectionURI_frame env ⟨c, [Call.getDatabase ns name]⟩]
        have := readConnectionURI_reads env c dns pg.uri
        generalize (readConnectionURI env ⟨c, []⟩ dns pg.uri) = q at this
        rcases q with ⟨q1, e | s⟩ <;> simpa [Call.isRead] using this
    · simp
  · simp

/-- The readiness gate reads only: the store content is kept and the history grows by reads. -/
theorem getDatabaseSpec_effect (env : Env) (w : World) (ns name : String) :
    ∃ rest, (getDatabaseSpec env w ns name).1 = ⟨w.cluster, w.calls ++ rest⟩ ∧
      ∀ x ∈ rest, x.isRead = true := by
  refine ⟨(getDatabaseSpec env ⟨w.cluster, []⟩ ns name).1.calls, ?_,
    getDatabaseSpec_reads env w.cluster ns name⟩
  rw [getDatabaseSpec_frame]

/-- The outcome of the readiness gate depends on the store content only. -/
theorem getDatabaseSpec_outcome (env : Env) (w w' : World) (ns name : String)
    (h : w'.cluster = w.cluster) :
    (getDatabaseSpec env w' ns name).2 = (getDatabaseSpec env w ns name).2 := by
  rw [getDatabaseSpec_frame env w', getDatabaseSpec_frame env w, h]

/-! ## Lemmas on the job orchestrator -/

theorem ensureTableConfigMap_effect (env : Env) (w : World) (database : Database)
    (table : Table) (plan : Option TablePlan) :
    ∃ rest, (ensureTableConfigMap env w database table plan).1.calls
        = w.calls ++ configMapBuilderCall table plan :: rest ∧
      (∀ x ∈ rest, x.isStore = true) ∧
      (ensureTableConfigMap env w database table plan).1.cluster.tables = w.cluster.tables := by
  unfold ensureTableConfigMap
  have key : ∀ (b : Call) (r : Except Error ConfigMap),
      ∃ rest, (match ((w.record b, r) : World × Except Error ConfigMap) with
        | (w1, .error err) => (w1, some (Error.wrap err "failed to get config map object"))
        | (w1, .ok desiredConfigMap) =>
          match getConfigMap env w1 desiredConfigMap.ns desiredConfigMap.name with
          | (w2, .error err) =>
            if IsNotFound err then
              match createConfigMap env w2 desiredConfigMap with
              | (w3, some err1) => (w3, some (Error.wrap err1 "failed to create configmap"))
              | (w3, none) => (w3, Wrap none "failed to get existing configmap")
            else (w2, Wrap (some err) "failed to get existing configmap")
          | (w2, .ok _) => (w2, none)).1.calls = w.calls ++ b :: rest ∧
        (∀ x ∈ rest, x.isStore = true) ∧
        (match ((w.record b, r) : World × Except Error ConfigMap) with
        | (w1, .error err) => (w1, some (Error.wrap err "failed to get config map object"))
        | (w1, .ok desiredConfigMap) =>
          match getConfigMap env w1 desiredConfigMap.ns desiredConfigMap.name with
          | (w2, .error err) =>
            if IsNotFound err then
              match createConfigMap env w2 desiredConfigMap with
              | (w3, some err1) => (w3, some (Error.wrap err1 "failed to create configmap"))
              | (w3, none) => (w3, Wrap none "failed to get existing configmap")
            else (w2, Wrap (some err) "failed to get existing configmap")
          | (w2, .ok _) => (w2, none)).1.cluster.tables = w.cluster.tables := by
    intro b r
    rcases r with e | d
    · exact ⟨[], by simp [World.record]⟩
    · simp only [getConfigMap, World.record]
      generalize readOutcome env (Call.getConfigMap d.ns d.name) _ = r
      rcases r with e | o
      · by_cases he : IsNotFound e = true
        · simp only [he, if_true, createConfigMap, World.record]
          by_cases hf : env.fails (Call.createConfigMap d) = true
          · exact ⟨[.getConfigMap d.ns d.name, .createConfigMap d], by
              simp [hf, Call.isStore, Call.isRead, Call.isMutation]⟩
          · simp only [hf]
            generalize Cluster.findConfigMap _ d.ns d.name = fo
            rcases fo with _ | o <;>
            exact ⟨[.getConfigMap d.ns d.name, .createConfigMap d], by
              simp [Wrap, Call.isStore, Call.isRead, Call.isMutation]⟩
        · exact ⟨[.getConfigMap d.ns d.name], by
            simp [he, Wrap, Call.isStore, Call.isRead]⟩
      · exact ⟨[.getConfigMap d.ns d.name], by simp [Call.isStore, Call.isRead]⟩
  cases plan with
  | none => exact key _ _
  | some p => exact key _ _

theorem ensureTablePod_effect (env : Env) (w : World) (database : Database)
    (table : Table) (isPlan : Bool) :
    ∃ rest, (ensureTablePod env w database table isPlan).1.calls
        = w.calls ++ podBuilderCall table isPlan :: rest ∧
      (∀ x ∈ rest, x.isStore = true) ∧
      (ensureTablePod env w database table isPlan).1.cluster.tables = w.cluster.tables := by
  unfold ensureTablePod
  have key : ∀ (b : Call) (r : Except Error Pod),
      ∃ rest, (match ((w.record b, r) : World × Except Error Pod) with
        | (w1, .error err) => (w1, some (Error.wrap err "failed to get pod object"))
        | (w1, .ok desiredPod) =>
          match getPod env w1 desiredPod.ns desiredPod.name with
          | (w2, .error err) =>
            if IsNotFound err then
              match createPod env w2 desiredPod with
              | (w3, some err1) =>
                (w3, some (Error.wrap err1 "failed to create table migration pod"))
              | (w3, none) => (w3, none)
            else (w2, Wrap (some err) "failed to get existing pod object")
          | (w2, .ok _) => (w2, none)).1.calls = w.calls ++ b :: rest ∧
        (∀ x ∈ rest, x.isStore = true) ∧
        (match ((w.record b, r) : World × Except Error Pod) with
        | (w1, .error err) => (w1, some (Error.wrap err "failed to get pod object"))
        | (w1, .ok desiredPod) =>
          match getPod env w1 desiredPod.ns desiredPod.name with
          | (w2, .error err) =>
            if IsNotFound err then
              match createPod env w2 desiredPod with
              | (w3, some err1) =>
                (w3, some (Error.wrap err1 "failed to create table migration pod"))
              | (w3, none) => (w3, none)
            else (w2, Wrap (some err) "failed to get existing pod object")
          | (w2, .ok _) => (w2, none)).1.cluster.tables = w.cluster.tables := by
    intro b r
    rcases r with e | d
    · exact ⟨[], by simp [World.record]⟩
    · simp only [getPod, World.record]
      generalize readOutcome env (Call.getPod d.ns d.name) _ = r
      rcases r with e | o
      · by_cases he : IsNotFound e = true
        · simp only [he, if_true, createPod, World.record]
          by_cases hf : env.fails (Call.createPod d) = true
          · exact ⟨[.getPod d.ns d.name, .createPod d], by
              simp [hf, Call.isStore, Call.isRead, Call.isMutation]⟩
          · simp only [hf]
            generalize Cluster.findPod _ d.ns d.name = fo
            rcases fo with _ | o <;>
            exact ⟨[.getPod d.ns d.name, .createPod d], by
              simp [Call.isStore, Call.isRead, Call.isMutation]⟩
        · exact ⟨[.getPod d.ns d.name], by
            simp [he, Wrap, Call.isStore, Call.isRead]⟩
      · exact ⟨[.getPod d.ns d.name], by simp [Call.isStore, Call.isRead]⟩
  cases isPlan with
  | true => simpa [podBuilderCall] using key (.planPod table) (env.planPod database table)
  | false => simpa [podBuilderCall] using key (.applyPod table) (env.applyPod database table)

/-- Calls of `deploy`: first the apply config map of the plan is built; what follows are
store calls and at most the building of the apply pod. -/
theorem deploy_effect (env : Env) (w : World) (database : Database) (table : Table)
    (p : TablePlan) :
    ∃ rest, (deploy env w database table p).1.calls
        = w.calls ++ Call.applyConfigMap table p :: rest ∧
      (∀ x ∈ rest, x.isStore = true ∨ x = Call.applyPod table) ∧
      (deploy env w database table p).1.cluster.tables = w.cluster.tables := by
  unfold deploy
  obtain ⟨r1, h1, hs1, ht1⟩ := ensureTableConfigMap_effect env w database table (some p)
  generalize ensureTableConfigMap env w database table (some p) = q at h1 ht1 ⊢
  obtain ⟨w1, e1⟩ := q
  simp only [configMapBuilderCall] at h1
  simp only at h1 ht1
  rcases e1 with _ | err <;> dsimp only
  · obtain ⟨r2, h2, hs2, ht2⟩ := ensureTablePod_effect env w1 database table false
    generalize ensureTablePod env w1 database table false = q at h2 ht2 ⊢
    obtain ⟨w2, e2⟩ := q
    simp only [podBuilderCall, Bool.false_eq_true, if_false, if_true] at h2
    simp only at h2 ht2
    refine ⟨r1 ++ Call.applyPod table :: r2, ?_, ?_, ?_⟩
    · rcases e2 with _ | err <;> simp [h2, h1]
    · intro x hx
      simp only [List.mem_append, List.mem_cons] at hx
      rcases hx with hx | hx | hx
      · exact Or.inl (hs1 x hx)
      · exact Or.inr hx
      · exact Or.inl (hs2 x hx)
    · rcases e2 with _ | err <;> simp [ht2, ht1]
  · exact ⟨r1, by simp [h1], fun x hx => Or.inl (hs1 x hx), by simp [ht1]⟩

/-- Calls of `plan`: only plan-mode builders and store calls. -/
theorem plan_effect (env : Env) (w : World) (database : Database) (table : Table) :
    ∃ rest, (plan env w database table).1.calls = w.calls ++ rest ∧
      (∀ x ∈ rest, x.isStore = true ∨ x.isPlanMode = true) ∧
      (plan env w database table).1.cluster.tables = w.cluster.tables := by
  unfold plan
  obtain ⟨r1, h1, hs1, ht1⟩ := ensureTableConfigMap_effect env w database table none
  generalize ensureTableConfigMap env w database table none = q at h1 ht1 ⊢
  obtain ⟨w1, e1⟩ := q
  simp only [configMapBuilderCall] at h1
  simp only at h1 ht1
  rcases e1 with _ | err <;> dsimp only
  · obtain ⟨r2, h2, hs2, ht2⟩ := ensureTablePod_effect env w1 database table true
    generalize ensureTablePod env w1 database table true = q at h2 ht2 ⊢
    obtain ⟨w2, e2⟩ := q
    simp only [podBuilderCall, Bool.false_eq_true, if_false, if_true] at h2
    simp only at h2 ht2
    refine ⟨Call.planConfigMap table :: r1 ++ Call.planPod table :: r2, ?_, ?_, ?_⟩
    · rcases e2 with _ | err <;> simp [h2, h1]
    · intro x hx
      simp only [List.cons_append, List.mem_cons, List.mem_append] at hx
      rcases hx with hx | hx | hx | hx
      · exact Or.inr (by simp [hx, Call.isPlanMode])
      · exact Or.inl (hs1 x hx)
      · exact Or.inr (by simp [hx, Call.isPlanMode])
      · exact Or.inl (hs2 x hx)
    · rcases e2 with _ | err <;> simp [ht2, ht1]
  · refine ⟨Call.planConfigMap table :: r1, by simp [h1], ?_, by simp [ht1]⟩
    intro x hx
    simp only [List.mem_cons] at hx
    rcases hx with hx | hx
    · exact Or.inr (by simp [hx, Call.isPlanMode])
    · exact Or.inl (hs1 x hx)

theorem reconcileInstance_tables (env : Env) (w : World) (inst : Table) :
    (reconcileInstance env w inst).1.cluster.tables = w.cluster.tables := by
  unfold reconcileInstance
  obtain ⟨reads, hw1, _⟩ := getDatabaseSpec_effect env w inst.ns inst.spec.database
  generalize getDatabaseSpec env w inst.ns inst.spec.database = q at hw1 ⊢
  obtain ⟨w1, r⟩ := q
  dsimp only at hw1 ⊢
  have ht1 : w1.cluster.tables = w.cluster.tables := by rw [hw1]
  rcases r with e | (_ | database) <;> dsimp only
  · exact ht1
  · exact ht1
  · by_cases hm : checkDatabaseTypeMatches database.connection inst.spec.schema = true
    · simp only [hm, Bool.not_true, Bool.false_eq_true, if_false]
      rcases inst.status.plans.find? dueForExecution with _ | p <;> dsimp only
      · rcases env.getSHA inst with e | tableSHA <;> dsimp only
        · exact ht1
        · by_cases ha : (inst.status.plans.any fun p => p.name == tableSHA) = true
          · simp only [ha, if_true]
            exact ht1
          · simp only [ha, Bool.false_eq_true, if_false]
            obtain ⟨_, _, _, ht2⟩ := plan_effect env w1 database inst
            generalize plan env w1 database inst = d at ht2 ⊢
            rcases d with ⟨w2, _ | e⟩ <;> exact ht2.trans ht1
      · obtain ⟨_, _, _, ht2⟩ := deploy_effect env w1 database inst p
        generalize deploy env w1 database inst p = d at ht2 ⊢
        rcases d with ⟨w2, _ | e⟩ <;> exact ht2.trans ht1
    · simp only [hm, Bool.not_false, if_true]
      exact ht1

/-- One pass over a Table that is already planned: only the readiness gate runs. -/
theorem reconcileInstance_planned_step (env : Env) (w : World) (inst : Table)
    (database : Database) (sha : String)
    (hready : (getDatabaseSpec env w inst.ns inst.spec.database).2 = .ok (some database))
    (hmatch : checkDatabaseTypeMatches database.connection inst.spec.schema = true)
    (hnone : ∀ p ∈ inst.status.plans, ¬ (p.approvedAt ≠ 0 ∧ p.executedAt = 0))
    (hsha : env.getSHA inst = .ok sha)
    (hplanned : ∃ p ∈ inst.status.plans, p.name = sha) :
    reconcileInstance env w inst
      = ((getDatabaseSpec env w inst.ns inst.spec.database).1, Result.empty, none) := by
  have hfind : inst.status.plans.find? dueForExecution = none :=
    find_none_due _ (fun q hq h => hnone q hq ⟨by omega, h.2⟩)
  have hany : inst.status.plans.any (fun p => p.name == sha) = true := by
    rw [List.any_eq_true]
    obtain ⟨p, hp, hn⟩ := hplanned
    exact ⟨p, hp, by simp [hn]⟩
  generalize hq : getDatabaseSpec env w inst.ns inst.spec.database = q at hready ⊢
  obtain ⟨w1, r⟩ := q
  dsimp only at hready ⊢
  subst hready
  unfold reconcileInstance
  rw [hq]
  simp only [hmatch, hfind, hsha, hany, Bool.not_true, Bool.false_eq_true, if_false, if_true]

/-! ## Lemmas on the harvester -/

theorem deletePod_effect (env : Env) (w : World) (ns name : String) :
    (deletePod env w ns name).1.cluster.tables = w.cluster.tables ∧
      (deletePod env w ns name).1.cluster.configMaps = w.cluster.configMaps ∧
      (deletePod env w ns name).1.calls = w.calls ++ [.deletePod ns name] ∧
      ((deletePod env w ns name).2 = none →
        (deletePod env w ns name).1.cluster.findPod ns name = none) := by
  unfold deletePod
  by_cases hf : env.fails (Call.deletePod ns name) = true
  · simp [hf, World.record]
  · simp only [hf]
    rcases hfp : w.cluster.findPod ns name with _ | fp
    · simp [World.record]
    · refine ⟨rfl, rfl, rfl, fun _ => ?_⟩
      exact find_filter_not (fun o : Pod => o.ns == ns && o.name == name) _

theorem deleteConfigMap_effect (env : Env) (w : World) (ns name : String) :
    (deleteConfigMap env w ns name).1.cluster.tables = w.cluster.tables ∧
      (deleteConfigMap env w ns name).1.cluster.pods = w.cluster.pods ∧
      (deleteConfigMap env w ns name).1.calls = w.calls ++ [.deleteConfigMap ns name] ∧
      ((deleteConfigMap env w ns name).2 = none →
        (deleteConfigMap env w ns name).1.cluster.findConfigMap ns name = none) := by
  unfold deleteConfigMap
  by_cases hf : env.fails (Call.deleteConfigMap ns name) = true
  · simp [hf, World.record]
  · simp only [hf]
    rcases hfp : w.cluster.findConfigMap ns name with _ | fp
    · simp [World.record]
    · refine ⟨rfl, rfl, rfl, fun _ => ?_⟩
      exact find_filter_not (fun o : ConfigMap => o.ns == ns && o.name == name) _

theorem updateTable_effect (env : Env) (w : World) (t : Table) :
    (updateTable env w t).1.calls = w.calls ++ [.updateTable t] ∧
      ((updateTable env w t).1.cluster.tables = w.cluster.tables ∨
        (updateTable env w t).1.cluster.tables
          = w.cluster.tables.map (fun o => if o.ns == t.ns && o.name == t.name then t else o)) ∧
      (env.fails (.updateTable t) = false → (w.cluster.findTable t.ns t.name).isSome = true →
        (updateTable env w t).2 = none ∧
        (updateTable env w t).1.cluster.tables
          = w.cluster.tables.map
              (fun o => if o.ns == t.ns && o.name == t.name then t else o)) := by
  unfold updateTable
  by_cases hf : env.fails (Call.updateTable t) = true
  · simp [hf, World.record]
  · simp only [hf]
    rcases hfp : w.cluster.findTable t.ns t.name with _ | ft
    · simp [World.record]
    · simp

theorem cleanupJob_frame (env : Env) (w : World) (pod : Pod) :
    (cleanupJob env w pod).1.cluster.tables = w.cluster.tables ∧
      (cleanupJob env w pod).1.calls.filter Call.isUpdateTable
        = w.calls.filter Call.isUpdateTable := by
  unfold cleanupJob
  obtain ⟨ht1, _, hc1, _⟩ := deletePod_effect env w pod.ns pod.name
  generalize deletePod env w pod.ns pod.name = d at ht1 hc1 ⊢
  obtain ⟨w1, e1⟩ := d
  dsimp only at ht1 hc1 ⊢
  rcases e1 with _ | e1 <;> dsimp only
  · simp only [getConfigMap]
    generalize readOutcome env (Call.getConfigMap pod.ns (configMapName pod.volumes))
      (w1.cluster.findConfigMap pod.ns (configMapName pod.volumes)) = r
    rcases r with e | cm <;> dsimp only
    · simp [World.record, ht1, hc1, List.filter_append, Call.isUpdateTable]
    · obtain ⟨ht2, _, hc2, _⟩ := deleteConfigMap_effect env
        (w1.record (Call.getConfigMap pod.ns (configMapName pod.volumes))) cm.ns cm.name
      generalize deleteConfigMap env
        (w1.record (Call.getConfigMap pod.ns (configMapName pod.volumes))) cm.ns cm.name = d2
        at ht2 hc2 ⊢
      obtain ⟨w3, e3⟩ := d2
      dsimp only at ht2 hc2 ⊢
      rcases e3 with _ | e3 <;> dsimp only <;>
        simp [ht2, hc2, World.record, ht1, hc1, List.filter_append, Call.isUpdateTable]
  · simp [ht1, hc1, List.filter_append, Call.isUpdateTable]

/-- The cleanup returns without error only after both deletions have succeeded. -/
theorem cleanupJob_success (env : Env) (w : World) (pod : Pod)
    (h : (cleanupJob env w pod).2.2 = none) :
    (cleanupJob env w pod).1.cluster.findPod pod.ns pod.name = none ∧
      (cleanupJob env w pod).1.cluster.findConfigMap pod.ns (configMapName pod.volumes)
        = none ∧
      (cleanupJob env w pod).1.calls
        = w.calls ++ [.deletePod pod.ns pod.name,
            .getConfigMap pod.ns (configMapName pod.volumes),
            .deleteConfigMap pod.ns (configMapName pod.volumes)] := by
  unfold cleanupJob at h ⊢
  obtain ⟨_, _, hc1, hs1⟩ := deletePod_effect env w pod.ns pod.name
  generalize deletePod env w pod.ns pod.name = d at hc1 hs1 h ⊢
  obtain ⟨w1, e1⟩ := d
  dsimp only at hc1 hs1 h ⊢
  rcases e1 with _ | e1 <;> dsimp only at h ⊢
  · simp only [getConfigMap] at h ⊢
    rcases hr : readOutcome env (Call.getConfigMap pod.ns (configMapName pod.volumes))
      (w1.cluster.findConfigMap pod.ns (configMapName pod.volumes)) with e | cm
    · simp [hr] at h
    · have hfound := (readOutcome_ok env _ _ cm hr).1
      have hkey : (cm.ns == pod.ns && cm.name == configMapName pod.volumes) = true := by
        have := List.find?_some hfound
        simpa using this
      simp only [Bool.and_eq_true, beq_iff_eq] at hkey
      simp only [hr, hkey.1, hkey.2] at h ⊢
      obtain ⟨_, hp2, hc2, hs2⟩ := deleteConfigMap_effect env
        (w1.record (Call.getConfigMap pod.ns (configMapName pod.volumes)))
        pod.ns (configMapName pod.volumes)
      generalize deleteConfigMap env
        (w1.record (Call.getConfigMap pod.ns (configMapName pod.volumes)))
        pod.ns (configMapName pod.volumes) = d2 at hp2 hc2 hs2 h ⊢
      obtain ⟨w3, e3⟩ := d2
      dsimp only at hp2 hc2 hs2 h ⊢
      rcases e3 with _ | e3 <;> dsimp only at h ⊢
      · refine ⟨?_, hs2 rfl, by simp [hc2, World.record, hc1]⟩
        have := hs1 rfl
        unfold Cluster.findPod at this ⊢
        rw [hp2]
        exact this
      · simp at h
  · simp at h

/-- What the block `if role == "plan"` does to the stored Tables: nothing, or one `Update`
of the Table named by the labels of the pod with one plan appended. -/
theorem harvestPlan_shape (env : Env) (w : World) (pod : Pod) :
    (harvestPlan env w pod).1.cluster.tables = w.cluster.tables ∨
      ∃ (tableName tableNamespace : String) (table : Table) (tableSHA raw : String),
        pod.labels.lookup "schemahero-name" = some tableName ∧
        pod.labels.lookup "schemahero-namespace" = some tableNamespace ∧
        w.cluster.findTable tableNamespace tableName = some table ∧
        env.getSHA table = .ok tableSHA ∧
        (harvestPlan env w pod).1
          = (updateTable env
              ⟨w.cluster, w.calls ++ [.getLogs pod.ns pod.name,
                .getTable tableNamespace tableName]⟩
              (harvestedTable env table tableSHA raw)).1 := by
  unfold harvestPlan
  rcases env.getConfig with _ | e
  · rcases env.newKubernetesClient with _ | e
    · rcases env.podLogs pod.ns pod.name with e | (e | raw)
      · exact Or.inl rfl
      · exact Or.inl rfl
      · rcases hname : pod.labels.lookup "schemahero-name" with _ | tableName
        · exact Or.inl rfl
        · rcases hns : pod.labels.lookup "schemahero-namespace" with _ | tableNamespace
          · exact Or.inl rfl
          · rcases env.newSchemasClient with _ | e
            · simp only [getTable, World.record]
              rcases hr : readOutcome env (Call.getTable tableNamespace tableName)
                (w.cluster.findTable tableNamespace tableName) with e | table
              · exact Or.inl rfl
              · have hfound := (readOutcome_ok env _ _ table hr).1
                dsimp only
                rcases hsha : env.getSHA table with e | tableSHA
                · exact Or.inl rfl
                · refine Or.inr ⟨tableName, tableNamespace, table, tableSHA, raw, rfl, rfl,
                    hfound, hsha, ?_⟩
                  simp only [harvestedTable, List.append_assoc, List.singleton_append,
                    List.nil_append, List.cons_append]
                  generalize updateTable env _ _ = u
                  rcases u with ⟨w3, _ | e⟩ <;> rfl
            · exact Or.inl rfl
    · exact Or.inl rfl
  · exact Or.inl rfl

/-- A plan pod that carries both Table labels leaves the block `if role == "plan"` early
only with an error. -/
theorem harvestPlan_labelled (env : Env) (w : World) (pod : Pod)
    (tableName tableNamespace : String)
    (hname : pod.labels.lookup "schemahero-name" = some tableName)
    (hns : pod.labels.lookup "schemahero-namespace" = some tableNamespace)
    (r : Result × Option Error) (h : (harvestPlan env w pod).2 = some r) : r.2 ≠ none := by
  unfold harvestPlan at h
  simp only [hname, hns] at h
  generalize env.getConfig = g1 at h
  rcases g1 with _ | e
  · generalize env.newKubernetesClient = g2 at h
    rcases g2 with _ | e
    · generalize env.podLogs pod.ns pod.name = g3 at h
      rcases g3 with e | (e | raw)
      · simp only [Option.some.injEq] at h; simp [← h]
      · simp only [Option.some.injEq] at h; simp [← h]
      · generalize env.newSchemasClient = g4 at h
        rcases g4 with _ | e
        · simp only [getTable, World.record] at h
          generalize readOutcome env (Call.getTable tableNamespace tableName)
            (w.cluster.findTable tableNamespace tableName) = g5 at h
          rcases g5 with e | table
          · simp only [Option.some.injEq] at h; simp [← h]
          · simp only at h
            generalize env.getSHA table = g6 at h
            rcases g6 with e | tableSHA
            · simp only [Option.some.injEq] at h; simp [← h]
            · simp only at h
              generalize updateTable env _ _ = u at h
              rcases u with ⟨w3, _ | e⟩
              · simp at h
              · simp only [Option.some.injEq] at h; simp [← h]
        · simp only [Option.some.injEq] at h; simp [← h]
    · simp only [Option.some.injEq] at h; simp [← h]
  · simp only [Option.some.injEq] at h; simp [← h]

/-- What `reconcilePod` does to the stored Tables: nothing, or, for a succeeded pod of role
`plan`, the replacement of the Table named by the labels of the pod by that Table with one
plan appended. -/
theorem reconcilePod_tables (env : Env) (w : World) (pod : Pod) :
    (reconcilePod env w pod).1.cluster.tables = w.cluster.tables ∨
      ∃ (tableName tableNamespace : String) (table : Table) (tableSHA raw : String),
        pod.labels.lookup "schemahero-role" = some "plan" ∧
        pod.phase = PodPhase.succeeded ∧
        pod.labels.lookup "schemahero-name" = some tableName ∧
        pod.labels.lookup "schemahero-namespace" = some tableNamespace ∧
        w.cluster.findTable tableNamespace tableName = some table ∧
        env.getSHA table = .ok tableSHA ∧
        (reconcilePod env w pod).1.cluster.tables
          = w.cluster.tables.map (fun o =>
              if o.ns == table.ns && o.name == table.name
              then harvestedTable env table tableSHA raw else o) := by
  have hplan : (harvestPlan env w pod).1.cluster.tables = w.cluster.tables ∨
      ∃ (tableName tableNamespace : String) (table : Table) (tableSHA raw : String),
        pod.labels.lookup "schemahero-name" = some tableName ∧
        pod.labels.lookup "schemahero-namespace" = some tableNamespace ∧
        w.cluster.findTable tableNamespace tableName = some table ∧
        env.getSHA table = .ok tableSHA ∧
        (harvestPlan env w pod).1.cluster.tables
          = w.cluster.tables.map (fun o =>
              if o.ns == table.ns && o.name == table.name
              then harvestedTable env table tableSHA raw else o) := by
    rcases harvestPlan_shape env w pod with h | ⟨tn, tns, table, sha, raw, h1, h2, h3, h4, h5⟩
    · exact Or.inl h
    · rcases (updateTable_effect env
          ⟨w.cluster, w.calls ++ [.getLogs pod.ns pod.name, .getTable tns tn]⟩
          (harvestedTable env table sha raw)).2.1 with hu | hu
      · exact Or.inl (by rw [h5, hu])
      · exact Or.inr ⟨tn, tns, table, sha, raw, h1, h2, h3, h4, by rw [h5, hu]; rfl⟩
  unfold reconcilePod
  rcases hrole : pod.labels.lookup "schemahero-role" with _ | role <;> dsimp only
  · exact Or.inl rfl
  · by_cases hr : (role != "table" && role != "plan") = true
    · simp [hr]
    · simp only [hr, Bool.false_eq_true, if_false]
      by_cases hph : (pod.phase == PodPhase.succeeded) = true
      · simp only [hph, if_true]
        by_cases hrp : (role == "plan") = true
        · simp only [hrp, if_true]
          have hrole' : role = "plan" := by simpa using hrp
          have hphase' : pod.phase = PodPhase.succeeded := by simpa using hph
          subst hrole'
          have hplan' : (harvestPlan env w pod).1.cluster.tables = w.cluster.tables ∨
              ∃ (tableName tableNamespace : String) (table : Table) (tableSHA raw : String),
                some "plan" = some "plan" ∧
                pod.phase = PodPhase.succeeded ∧
                pod.labels.lookup "schemahero-name" = some tableName ∧
                pod.labels.lookup "schemahero-namespace" = some tableNamespace ∧
                w.cluster.findTable tableNamespace tableName = some table ∧
                env.getSHA table = .ok tableSHA ∧
                (harvestPlan env w pod).1.cluster.tables
                  = w.cluster.tables.map (fun o =>
                      if o.ns == table.ns && o.name == table.name
                      then harvestedTable env table tableSHA raw else o) := by
            rcases hplan with h | ⟨tn, tns, table, sha, raw, h1, h2, h3, h4, h5⟩
            · exact Or.inl h
            · exact Or.inr ⟨tn, tns, table, sha, raw, rfl, hphase', h1, h2, h3, h4, h5⟩
          generalize harvestPlan env w pod = hp at hplan' ⊢
          obtain ⟨w1, o⟩ := hp
          dsimp only at hplan'
          rcases o with _ | r <;> dsimp only
          · rw [(cleanupJob_frame env w1 pod).1]
            exact hplan'
          · exact hplan'
        · simp only [hrp, Bool.false_eq_true, if_false]
          exact Or.inl (cleanupJob_frame env w pod).1
      · simp [hph]

/-! ## C1: an approved, unexecuted plan is executed first -/

/-- C1, the claim as stated fails: the Database is ready and engine-matching and the only
plan has `approvedAt = -1` (not zero) and `executedAt = 0`, yet `reconcileInstance` starts no
apply job; the fingerprint matching no plan, it starts a plan job. -/
theorem reconcileInstance_negative_approval_not_deployed :
    (getDatabaseSpec env0 (worldWith [tableWith "db1" [planNegative]] [] [] [])
        "default" "db1").2 = .ok (some db1) ∧
      checkDatabaseTypeMatches db1.connection (tableWith "db1" [planNegative]).spec.schema = true ∧
      planNegative ∈ (tableWith "db1" [planNegative]).status.plans ∧
      planNegative.approvedAt ≠ 0 ∧ planNegative.executedAt = 0 ∧
      ((reconcileInstance env0 (worldWith [tableWith "db1" [planNegative]] [] [] [])
        (tableWith "db1" [planNegative])).1.calls.filter Call.isApplyConfigMap = []) ∧
      ((reconcileInstance env0 (worldWith [tableWith "db1" [planNegative]] [] [] [])
        (tableWith "db1" [planNegative])).1.calls.filter Call.isPlanMode
        = [Call.planConfigMap (tableWith "db1" [planNegative]),
           Call.planPod (tableWith "db1" [planNegative])]) := by
  decide

/-- C1 (amended: `approvedAt > 0` in place of `approvedAt != 0`): when the Database is ready
and engine-matching and `p` is the first plan in sequence order with `approvedAt > 0` and
`executedAt = 0`, `reconcileInstance` is exactly one `deploy` with `p` after the readiness
gate, it returns the empty result (no requeue), the history gains exactly one start of an
apply job, the one of `p`, and no plan-mode call; nothing is assumed on the fingerprint. -/
theorem reconcileInstance_executes_first_due_plan (env : Env) (w : World) (inst : Table)
    (database : Database) (pre post : List TablePlan) (p : TablePlan)
    (hready : (getDatabaseSpec env w inst.ns inst.spec.database).2 = .ok (some database))
    (hmatch : checkDatabaseTypeMatches database.connection inst.spec.schema = true)
    (hplans : inst.status.plans = pre ++ p :: post)
    (hpre : ∀ q ∈ pre, ¬ (q.approvedAt > 0 ∧ q.executedAt = 0))
    (hp : p.approvedAt > 0 ∧ p.executedAt = 0) :
    reconcileInstance env w inst
        = ((deploy env (getDatabaseSpec env w inst.ns inst.spec.database).1 database inst p).1,
           Result.empty,
           Wrap (deploy env (getDatabaseSpec env w inst.ns inst.spec.database).1
             database inst p).2 "failed to deploy planned migration") ∧
      (reconcileInstance env w inst).1.calls.filter Call.isApplyConfigMap
        = w.calls.filter Call.isApplyConfigMap ++ [Call.applyConfigMap inst p] ∧
      (reconcileInstance env w inst).1.calls.filter Call.isPlanMode
        = w.calls.filter Call.isPlanMode := by
  have hfind := find_first_due pre post p hpre hp
  obtain ⟨reads, hw1, hreads⟩ := getDatabaseSpec_effect env w inst.ns inst.spec.database
  generalize hq : getDatabaseSpec env w inst.ns inst.spec.database = q at hready hw1 ⊢
  obtain ⟨w1, r⟩ := q
  dsimp only at hready hw1 ⊢
  subst hready
  have heq : reconcileInstance env w inst
      = ((deploy env w1 database inst p).1, Result.empty,
         Wrap (deploy env w1 database inst p).2 "failed to deploy planned migration") := by
    unfold reconcileInstance
    rw [hq]
    simp only [hmatch, hplans, hfind, Bool.not_true, Bool.false_eq_true, if_false]
    generalize deploy env w1 database inst p = d
    rcases d with ⟨w2, _ | e⟩ <;> simp [Wrap]
  refine ⟨heq, ?_, ?_⟩
  · rw [heq]
    obtain ⟨rest, hcalls, hrest, _⟩ := deploy_effect env w1 database inst p
    dsimp only
    rw [hcalls, hw1]
    have h1 : reads.filter Call.isApplyConfigMap = [] :=
      filter_rejected _ _ (fun x hx =>
        isStore_not_isApplyConfigMap x (isRead_isStore x (hreads x hx)))
    have h2 : rest.filter Call.isApplyConfigMap = [] :=
      filter_rejected _ _ (fun x hx => by
        rcases hrest x hx with h | h
        · exact isStore_not_isApplyConfigMap x h
        · simp [h, Call.isApplyConfigMap])
    simp [List.filter_append, List.filter_cons, h1, h2, Call.isApplyConfigMap]
  · rw [heq]
    obtain ⟨rest, hcalls, hrest, _⟩ := deploy_effect env w1 database inst p
    dsimp only
    rw [hcalls, hw1]
    have h1 : reads.filter Call.isPlanMode = [] :=
      filter_rejected _ _ (fun x hx =>
        isStore_not_isPlanMode x (isRead_isStore x (hreads x hx)))
    have h2 : rest.filter Call.isPlanMode = [] :=
      filter_rejected _ _ (fun x hx => by
        rcases hrest x hx with h | h
        · exact isStore_not_isPlanMode x h
        · simp [h, Call.isPlanMode])
    simp [List.filter_append, List.filter_cons, h1, h2, Call.isPlanMode]

/-- C1, the amended statement at a concrete Table: one approved plan, fingerprint of no
plan. -/
theorem reconcileInstance_executes_first_due_plan_witness :
    (reconcileInstance env0 (worldWith [] [] [] [])
        (tableWith "db1" [planNegative, planApproved])).2 = (Result.empty, none) ∧
      (reconcileInstance env0 (worldWith [] [] [] [])
        (tableWith "db1" [planNegative, planApproved])).1.calls.filter Call.isApplyConfigMap
        = [Call.applyConfigMap (tableWith "db1" [planNegative, planApproved]) planApproved] := by
  have h := reconcileInstance_executes_first_due_plan env0 (worldWith [] [] [] [])
    (tableWith "db1" [planNegative, planApproved]) db1 [planNegative] [] planApproved
    (by decide) (by decide) (by decide) (by decide) (by decide)
  refine ⟨?_, ?_⟩
  · rw [h.1]; decide
  · rw [h.2.1]; decide

/-! ## C2: an already planned Table is left alone -/

/-- C2: for a Table whose Database is ready and engine-matching, that has no plan with
`approvedAt != 0` and `executedAt == 0`, and whose fingerprint is the name of one of its plans,
`reconcileInstance` returns the empty result and no error, leaves the store content (hence
`status.plans`) as it was and issues no create, update or delete; and after any number `n` of
repetitions the store content is still the same, no write has been issued, and the next pass
again returns the empty result and no error. -/
theorem reconcileInstance_noop_when_planned (env : Env) (w : World) (inst : Table)
    (database : Database) (sha : String)
    (hready : (getDatabaseSpec env w inst.ns inst.spec.database).2 = .ok (some database))
    (hmatch : checkDatabaseTypeMatches database.connection inst.spec.schema = true)
    (hnone : ∀ p ∈ inst.status.plans, ¬ (p.approvedAt ≠ 0 ∧ p.executedAt = 0))
    (hsha : env.getSHA inst = .ok sha)
    (hplanned : ∃ p ∈ inst.status.plans, p.name = sha) :
    (reconcileInstance env w inst).2 = (Result.empty, none) ∧
      (reconcileInstance env w inst).1.cluster = w.cluster ∧
      (reconcileInstance env w inst).1.calls.filter Call.isMutation
        = w.calls.filter Call.isMutation ∧
      ∀ n : Nat,
        (reconcileTimes env inst n w).cluster = w.cluster ∧
        (reconcileTimes env inst n w).calls.filter Call.isMutation
          = w.calls.filter Call.isMutation ∧
        (reconcileInstance env (reconcileTimes env inst n w) inst).2 = (Result.empty, none) := by
  have step : ∀ w' : World, w'.cluster = w.cluster →
      (reconcileInstance env w' inst).2 = (Result.empty, none) ∧
      (reconcileInstance env w' inst).1.cluster = w.cluster ∧
      (reconcileInstance env w' inst).1.calls.filter Call.isMutation
        = w'.calls.filter Call.isMutation := by
    intro w' hw'
    have hready' : (getDatabaseSpec env w' inst.ns inst.spec.database).2
        = .ok (some database) := by
      rw [getDatabaseSpec_outcome env w w' _ _ hw', hready]
    rw [reconcileInstance_planned_step env w' inst database sha hready' hmatch hnone hsha
      hplanned]
    obtain ⟨reads, hw1, hreads⟩ := getDatabaseSpec_effect env w' inst.ns inst.spec.database
    rw [hw1]
    refine ⟨rfl, hw', ?_⟩
    exact filter_append_rejected _ _ _ (fun x hx => isRead_not_isMutation x (hreads x hx))
  refine ⟨(step w rfl).1, (step w rfl).2.1, (step w rfl).2.2, ?_⟩
  intro n
  have iter : ∀ (n : Nat) (w' : World), w'.cluster = w.cluster →
      (reconcileTimes env inst n w').cluster = w.cluster ∧
      (reconcileTimes env inst n w').calls.filter Call.isMutation
        = w'.calls.filter Call.isMutation := by
    intro n
    induction n with
    | zero => intro w' hw'; exact ⟨hw', rfl⟩
    | succ n ih =>
      intro w' hw'
      have hs := step w' hw'
      have := ih (reconcileInstance env w' inst).1 hs.2.1
      simp only [reconcileTimes]
      exact ⟨this.1, this.2.trans hs.2.2⟩
  exact ⟨(iter n w rfl).1, (iter n w rfl).2, (step _ (iter n w rfl).1).1⟩

/-- C2 at a concrete Table: the plan of the current fingerprint exists and is not approved. -/
theorem reconcileInstance_noop_when_planned_witness :
    (reconcileInstance env0 (worldWith [tableWith "db1" [planPending]] [] [] [])
        (tableWith "db1" [planPending])).2 = (Result.empty, none) ∧
      (reconcileTimes env0 (tableWith "db1" [planPending]) 3
        (worldWith [tableWith "db1" [planPending]] [] [] [])).cluster
        = (worldWith [tableWith "db1" [planPending]] [] [] []).cluster := by
  have h := reconcileInstance_noop_when_planned env0
    (worldWith [tableWith "db1" [planPending]] [] [] []) (tableWith "db1" [planPending])
    db1 "abc123" (by decide) (by decide) (by decide) (by decide) (by decide)
  exact ⟨h.1, (h.2.2.2 3).1⟩

/-! ## C3: one plan per fingerprint -/

/-- C3, the claim as stated fails: the Table has one plan, named by its current fingerprint;
a succeeded plan pod of that Table is harvested without error and the plan names of the
stored Table, distinct before, are `abc123` twice afterwards. -/
theorem harvest_duplicates_plan_name :
    (∀ t ∈ (worldWith [tableWith "db1" [planPending]] [] [configMapPlan]
        [podPlanDone]).cluster.tables, (planNames t).Nodup) ∧
      (reconcilePod env0
        (worldWith [tableWith "db1" [planPending]] [] [configMapPlan] [podPlanDone])
        podPlanDone).2 = (Result.empty, none) ∧
      (reconcilePod env0
        (worldWith [tableWith "db1" [planPending]] [] [configMapPlan] [podPlanDone])
        podPlanDone).1.cluster.tables = [tableWith "db1" [planPending, planHarvested]] ∧
      ¬ (planNames (tableWith "db1" [planPending, planHarvested])).Nodup := by
  decide

/-- C3 (amended): `reconcileInstance` leaves every stored Table as it is; and if the plan
names of every stored Table are pairwise distinct, they are so after `reconcilePod`, provided
that, when the pod is a succeeded pod of role `plan`, the Table named by the labels of the pod
has no plan named by the fingerprint it has at harvest time.  (The harvester does not check
this itself: it appends whenever it harvests.)  For every other pod nothing is required. -/
theorem reconcile_keeps_plan_names_distinct (env : Env) (w : World) (inst : Table) (pod : Pod)
    (hfresh : pod.labels.lookup "schemahero-role" = some "plan" →
      pod.phase = PodPhase.succeeded →
      ∀ (tableName tableNamespace : String) (table : Table) (tableSHA : String),
        pod.labels.lookup "schemahero-name" = some tableName →
        pod.labels.lookup "schemahero-namespace" = some tableNamespace →
        w.cluster.findTable tableNamespace tableName = some table →
        env.getSHA table = .ok tableSHA →
        ∀ p ∈ table.status.plans, p.name ≠ tableSHA)
    (hdistinct : ∀ t ∈ w.cluster.tables, (planNames t).Nodup) :
    (reconcileInstance env w inst).1.cluster.tables = w.cluster.tables ∧
      ∀ t ∈ (reconcilePod env w pod).1.cluster.tables, (planNames t).Nodup := by
  refine ⟨reconcileInstance_tables env w inst, ?_⟩
  rcases reconcilePod_tables env w pod with
    h | ⟨tn, tns, table, sha, raw, hrole, hphase, h1, h2, h3, h4, h5⟩
  · rw [h]; exact hdistinct
  · rw [h5]
    intro t ht
    rw [List.mem_map] at ht
    obtain ⟨o, ho, hto⟩ := ht
    by_cases hk : (o.ns == table.ns && o.name == table.name) = true
    · simp only [hk, if_true] at hto
      subst hto
      have hmem : table ∈ w.cluster.tables := List.mem_of_find?_eq_some h3
      have hnd := hdistinct table hmem
      have hnew := hfresh hrole hphase tn tns table sha h1 h2 h3 h4
      simp only [planNames, harvestedTable, List.map_append, List.map_cons, List.map_nil]
      simp only [planNames] at hnd
      rw [List.nodup_append]
      refine ⟨hnd, by simp, ?_⟩
      intro a ha hb
      simp only [List.mem_singleton] at hb
      subst hb
      rw [List.mem_map] at ha
      obtain ⟨p, hp, hpn⟩ := ha
      exact hnew p hp hpn
    · simp only [hk, Bool.false_eq_true, if_false] at hto
      subst hto
      exact hdistinct o ho

/-- C3, the amended statement at two concrete steps.  First the harvest of the succeeded plan
pod of a Table that has the plan `old` of an earlier fingerprint: the plan of the current
fingerprint `abc123` is appended and the two names are distinct.  Then the harvest of the
succeeded apply pod of a Table whose plan is named by its current fingerprint: nothing is
required of the Table, and its plans are as before. -/
theorem reconcile_keeps_plan_names_distinct_witness :
    ((reconcilePod env0
          (worldWith [tableWith "db1" [planNegative]] [] [configMapPlan] [podPlanDone])
          podPlanDone).1.cluster.tables.map planNames = [["old", "abc123"]] ∧
      ∀ t ∈ (reconcilePod env0
          (worldWith [tableWith "db1" [planNegative]] [] [configMapPlan] [podPlanDone])
          podPlanDone).1.cluster.tables, (planNames t).Nodup) ∧
    ((reconcilePod env0
          (worldWith [tableWith "db1" [planApproved]] [] [configMapApply] [podApplyDone])
          podApplyDone).1.cluster.tables.map planNames = [["abc123"]] ∧
      ∀ t ∈ (reconcilePod env0
          (worldWith [tableWith "db1" [planApproved]] [] [configMapApply] [podApplyDone])
          podApplyDone).1.cluster.tables, (planNames t).Nodup) :=
  ⟨⟨by decide,
    (reconcile_keeps_plan_names_distinct env0
      (worldWith [tableWith "db1" [planNegative]] [] [configMapPlan] [podPlanDone])
      (tableWith "db1" [planNegative]) podPlanDone
      (by
        intro _ _ tn tns table sha _ _ h3 h4 p hp
        have hmem := List.mem_of_find?_eq_some h3
        simp only [worldWith, List.mem_singleton] at hmem
        subst hmem
        have hsha : sha = "abc123" := by
          have h : (Except.ok "abc123" : Except Error String) = Except.ok sha := h4
          exact (Except.ok.inj h).symm
        have hp' : p = planNegative := by simpa [tableWith] using hp
        subst hsha hp'
        decide)
      (by decide)).2⟩,
   ⟨by decide,
    (reconcile_keeps_plan_names_distinct env0
      (worldWith [tableWith "db1" [planApproved]] [] [configMapApply] [podApplyDone])
      (tableWith "db1" [planApproved]) podApplyDone
      (fun hrole => absurd hrole (by decide))
      (by decide)).2⟩⟩

/-! ## C4: after the apply job -/

/-- C4, the code at the failing input: the apply pod of the approved plan has succeeded and
`reconcilePod` harvests it without error; the harvest deletes the pod and its config map and
leaves the Table as it was (`executedAt` is still zero), and the next `reconcileInstance` of
the Table starts the apply job of the same plan again and creates the config map and the pod
anew. -/
theorem apply_job_is_started_again_after_harvest :
    (reconcilePod env0
        (worldWith [tableWith "db1" [planApproved]] [] [configMapApply] [podApplyDone])
        podApplyDone).2 = (Result.empty, none) ∧
      (reconcilePod env0
        (worldWith [tableWith "db1" [planApproved]] [] [configMapApply] [podApplyDone])
        podApplyDone).1.cluster
        = (worldWith [tableWith "db1" [planApproved]] [] [] []).cluster ∧
      (reconcileInstance env0
        (reconcilePod env0
          (worldWith [tableWith "db1" [planApproved]] [] [configMapApply] [podApplyDone])
          podApplyDone).1
        (tableWith "db1" [planApproved])).1.calls
        = [.deletePod "default" "t1-apply", .getConfigMap "default" "t1-apply",
           .deleteConfigMap "default" "t1-apply", .getDatabase "default" "db1",
           .applyConfigMap (tableWith "db1" [planApproved]) planApproved,
           .getConfigMap "default" "t1-apply", .createConfigMap configMapApply,
           .applyPod (tableWith "db1" [planApproved]), .getPod "default" "t1-apply",
           .createPod { podApplyDone with phase := .pending }] := by
  decide

/-! ## C5: the plan the harvester appends -/

/-- C5: a succeeded pod of role `plan` whose labels name the stored Table `table`, with the
clients and the log stream working, `raw` the pod output and `tableSHA` the fingerprint of
`table` at harvest time.  `reconcilePod` issues exactly one `Update` of a Table, and the Table
it writes is `table` with its plans unchanged and in the same order, followed by exactly one
new plan: name `tableSHA`, ddl the normalized output, `plannedAt` the current time,
`approvedAt`, `rejectedAt` and `executedAt` zero.  Unless the `Update` itself fails, this is
the Table stored under the labelled name afterwards. -/
theorem reconcilePod_appends_one_plan (env : Env) (w : World) (pod : Pod)
    (tableName tableNamespace : String) (table : Table) (tableSHA raw : String)
    (hrole : pod.labels.lookup "schemahero-role" = some "plan")
    (hphase : pod.phase = PodPhase.succeeded)
    (hname : pod.labels.lookup "schemahero-name" = some tableName)
    (hns : pod.labels.lookup "schemahero-namespace" = some tableNamespace)
    (hcfg : env.getConfig = none) (hkube : env.newKubernetesClient = none)
    (hschemas : env.newSchemasClient = none)
    (hlogs : env.podLogs pod.ns pod.name = .ok (.ok raw))
    (htable : (getTable env w tableNamespace tableName).2 = .ok table)
    (hsha : env.getSHA table = .ok tableSHA) :
    (harvestedTable env table tableSHA raw).status.plans
        = table.status.plans ++
          [{ name := tableSHA, ddl := normalize raw, plannedAt := env.now,
             approvedAt := 0, rejectedAt := 0, executedAt := 0 }] ∧
      (harvestedTable env table tableSHA raw).name = table.name ∧
      (harvestedTable env table tableSHA raw).ns = table.ns ∧
      (harvestedTable env table tableSHA raw).spec = table.spec ∧
      (reconcilePod env w pod).1.calls.filter Call.isUpdateTable
        = w.calls.filter Call.isUpdateTable
          ++ [.updateTable (harvestedTable env table tableSHA raw)] ∧
      (env.fails (.updateTable (harvestedTable env table tableSHA raw)) = false →
        (reconcilePod env w pod).1.cluster.findTable tableNamespace tableName
          = some (harvestedTable env table tableSHA raw)) := by
  refine ⟨rfl, rfl, rfl, rfl, ?_⟩
  simp only [getTable] at htable
  have hfound := (readOutcome_ok env _ _ table htable).1
  have hkey : (table.ns == tableNamespace && table.name == tableName) = true := by
    have := List.find?_some hfound
    simpa using this
  have heq : reconcilePod env w pod
      = (match updateTable env
            ⟨w.cluster, w.calls ++ [.getLogs pod.ns pod.name,
              .getTable tableNamespace tableName]⟩
            (harvestedTable env table tableSHA raw) with
        | (w3, some err) =>
          (w3, Result.empty, some (Error.wrap err "failed to write plan to table status"))
        | (w3, none) => cleanupJob env w3 pod) := by
    simp only [reconcilePod, hrole, hphase, harvestPlan, hcfg, hkube, hlogs, hname, hns,
      hschemas, getTable, World.record, htable, hsha, harvestedTable, List.append_assoc,
      List.singleton_append]
    generalize updateTable env _ _ = u
    rcases u with ⟨w3, _ | e⟩ <;> simp
  rw [heq]
  obtain ⟨hc, _, hok⟩ := updateTable_effect env
    ⟨w.cluster, w.calls ++ [.getLogs pod.ns pod.name, .getTable tableNamespace tableName]⟩
    (harvestedTable env table tableSHA raw)
  generalize updateTable env
    ⟨w.cluster, w.calls ++ [.getLogs pod.ns pod.name, .getTable tableNamespace tableName]⟩
    (harvestedTable env table tableSHA raw) = u at hc hok ⊢
  obtain ⟨w3, e3⟩ := u
  dsimp only at hc hok
  simp only [Bool.and_eq_true, beq_iff_eq] at hkey
  have hfound' : (w.cluster.findTable (harvestedTable env table tableSHA raw).ns
      (harvestedTable env table tableSHA raw).name).isSome = true := by
    show (w.cluster.findTable table.ns table.name).isSome = true
    rw [hkey.1, hkey.2, hfound]
    rfl
  have hfilter : w3.calls.filter Call.isUpdateTable
      = w.calls.filter Call.isUpdateTable
        ++ [.updateTable (harvestedTable env table tableSHA raw)] := by
    rw [hc]
    simp [List.filter_append, Call.isUpdateTable]
  have hstored : env.fails (.updateTable (harvestedTable env table tableSHA raw)) = false →
      e3 = none ∧ w3.cluster.findTable tableNamespace tableName
        = some (harvestedTable env table tableSHA raw) := by
    intro hf
    obtain ⟨he, ht⟩ := hok hf hfound'
    refine ⟨he, ?_⟩
    unfold Cluster.findTable
    rw [ht]
    have hns' : (harvestedTable env table tableSHA raw).ns = tableNamespace := hkey.1
    have hname' : (harvestedTable env table tableSHA raw).name = tableName := hkey.2
    rw [hns', hname']
    exact find_map_replace (fun o : Table => o.ns == tableNamespace && o.name == tableName)
      w.cluster.tables table _ hfound (by simp [hns', hname'])
  rcases e3 with _ | e3 <;> dsimp only
  · refine ⟨?_, ?_⟩
    · rw [(cleanupJob_frame env w3 pod).2]
      exact hfilter
    · intro hf
      unfold Cluster.findTable
      rw [(cleanupJob_frame env w3 pod).1]
      exact (hstored hf).2
  · refine ⟨hfilter, ?_⟩
    intro hf
    exact (hstored hf).2

/-- C5 at the succeeded plan pod of the Table `t1`, which has no plan yet. -/
theorem reconcilePod_appends_one_plan_witness :
    (reconcilePod env0 (worldWith [tableWith "db1" []] [] [configMapPlan] [podPlanDone])
        podPlanDone).1.calls.filter Call.isUpdateTable
        = [.updateTable (tableWith "db1" [planHarvested])] ∧
      (reconcilePod env0 (worldWith [tableWith "db1" []] [] [configMapPlan] [podPlanDone])
        podPlanDone).1.cluster.findTable "default" "t1"
        = some (tableWith "db1" [planHarvested]) :=
  have h := reconcilePod_appends_one_plan env0
    (worldWith [tableWith "db1" []] [] [configMapPlan] [podPlanDone]) podPlanDone
    "t1" "default" (tableWith "db1" []) "abc123" "CREATE TABLE t1 (id int);\n"
    (by decide) (by decide) (by decide) (by decide) rfl rfl rfl rfl (by decide) (by decide)
  ⟨h.2.2.2.2.1, h.2.2.2.2.2 (by decide)⟩

/-! ## C6: cleanup of the job artifacts -/

/-- C6, the claim as stated fails: a succeeded pod of role `plan` without the label
`schemahero-name`; `reconcilePod` returns without error after reading the log, and the pod and
the config map of its volume `specs` are still in the store, no delete having been issued. -/
theorem unlabelled_plan_pod_not_cleaned_up :
    podPlanUnlabelled.labels.lookup "schemahero-role" = some "plan" ∧
      podPlanUnlabelled.phase = PodPhase.succeeded ∧
      reconcilePod env0 (worldWith [] [] [configMapPlan] [podPlanUnlabelled]) podPlanUnlabelled
        = (⟨(worldWith [] [] [configMapPlan] [podPlanUnlabelled]).cluster,
            [.getLogs "default" "t1-plan"]⟩, Result.empty, none) ∧
      (worldWith [] [] [configMapPlan] [podPlanUnlabelled]).cluster.findPod "default" "t1-plan"
        = some podPlanUnlabelled ∧
      (worldWith [] [] [configMapPlan] [podPlanUnlabelled]).cluster.findConfigMap "default"
        (configMapName podPlanUnlabelled.volumes) = some configMapPlan := by
  decide

/-- C6 (amended: a pod of role `plan` must carry the labels `schemahero-name` and
`schemahero-namespace`): for a succeeded pod of role `table`, or of role `plan` with both
labels, whenever `reconcilePod` returns without error the pod and the config map named by its
volume `specs` are no longer in the store, and the pass ends with the deletion of the pod, the
lookup of that config map and its deletion. -/
theorem reconcilePod_cleans_up (env : Env) (w : World) (pod : Pod) (role : String)
    (hrole : pod.labels.lookup "schemahero-role" = some role)
    (hkind : role = "table" ∨
      (role = "plan" ∧ (pod.labels.lookup "schemahero-name").isSome = true ∧
        (pod.labels.lookup "schemahero-namespace").isSome = true))
    (hphase : pod.phase = PodPhase.succeeded)
    (herr : (reconcilePod env w pod).2.2 = none) :
    (reconcilePod env w pod).1.cluster.findPod pod.ns pod.name = none ∧
      (reconcilePod env w pod).1.cluster.findConfigMap pod.ns (configMapName pod.volumes)
        = none ∧
      ∃ earlier, (reconcilePod env w pod).1.calls
        = earlier ++ [.deletePod pod.ns pod.name,
            .getConfigMap pod.ns (configMapName pod.volumes),
            .deleteConfigMap pod.ns (configMapName pod.volumes)] := by
  rcases hkind with hk | ⟨hk, hname, hns⟩
  · subst hk
    have heq : reconcilePod env w pod = cleanupJob env w pod := by
      simp [reconcilePod, hrole, hphase]
    rw [heq] at herr ⊢
    obtain ⟨h1, h2, h3⟩ := cleanupJob_success env w pod herr
    exact ⟨h1, h2, w.calls, h3⟩
  · subst hk
    obtain ⟨tn, hname⟩ := Option.isSome_iff_exists.mp hname
    obtain ⟨tns, hns⟩ := Option.isSome_iff_exists.mp hns
    have hlab := harvestPlan_labelled env w pod tn tns hname hns
    have heq : reconcilePod env w pod
        = (match harvestPlan env w pod with
          | (w1, some r) => (w1, r)
          | (w1, none) => cleanupJob env w1 pod) := by
      simp [reconcilePod, hrole, hphase]
    rw [heq] at herr ⊢
    generalize harvestPlan env w pod = hp at hlab herr ⊢
    obtain ⟨w1, o⟩ := hp
    rcases o with _ | r <;> dsimp only at hlab herr ⊢
    · obtain ⟨h1, h2, h3⟩ := cleanupJob_success env w1 pod herr
      exact ⟨h1, h2, w1.calls, h3⟩
    · exact absurd herr (hlab r rfl)

/-- C6, the amended statement at the succeeded apply pod and at the succeeded plan pod of the
Table `t1`. -/
theorem reconcilePod_cleans_up_witness :
    (reconcilePod env0
        (worldWith [tableWith "db1" [planApproved]] [] [configMapApply] [podApplyDone])
        podApplyDone).1.cluster.findPod "default" "t1-apply" = none ∧
      (reconcilePod env0 (worldWith [tableWith "db1" []] [] [configMapPlan] [podPlanDone])
        podPlanDone).1.cluster.findConfigMap "default" "t1-plan" = none :=
  ⟨(reconcilePod_cleans_up env0
      (worldWith [tableWith "db1" [planApproved]] [] [configMapApply] [podApplyDone])
      podApplyDone "table" (by decide) (Or.inl rfl) (by decide) (by decide)).1,
   (reconcilePod_cleans_up env0
      (worldWith [tableWith "db1" []] [] [configMapPlan] [podPlanDone])
      podPlanDone "plan" (by decide) (Or.inr ⟨rfl, by decide, by decide⟩) (by decide)
      (by decide)).2.1⟩

/-! ## C7: not ready -/

/-- C7: when the lookup of the Database reports not-found, or the Database is found and the
connection of its engine (Postgres, else MySQL) has no inline value and refers to a secret
whose lookup reports not-found, `reconcileInstance` returns `Requeue` with `RequeueAfter` of
exactly 10 seconds (in nanoseconds) and a nil error, the store content is unchanged and no
create, update or delete has been issued. -/
theorem reconcileInstance_requeues_when_not_ready (env : Env) (w : World) (inst : Table)
    (hcfg : env.getConfig = none) (hclient : env.newDatabasesClient = none)
    (h : (getDatabase env w inst.ns inst.spec.database).2 = .error .notFound ∨
      ∃ (database : Database) (conn : EngineConnection) (ref : SecretKeyRef),
        (getDatabase env w inst.ns inst.spec.database).2 = .ok database ∧
        (database.connection.postgres = some conn ∨
          (database.connection.postgres = none ∧ database.connection.mysql = some conn)) ∧
        conn.uri.value = "" ∧
        conn.uri.valueFrom = some { secretKeyRef := some ref } ∧
        (getSecret env w database.ns ref.name).2 = .error .notFound) :
    (reconcileInstance env w inst).2
        = ({ requeue := true, requeueAfter := 10000000000 }, none) ∧
      (reconcileInstance env w inst).1.cluster = w.cluster ∧
      (reconcileInstance env w inst).1.calls.filter Call.isMutation
        = w.calls.filter Call.isMutation := by
  rcases h with h | ⟨database, conn, ref, hdb, hconn, hval, hfrom, hsec⟩
  · simp only [getDatabase] at h
    simp [reconcileInstance, getDatabaseSpec, hcfg, hclient, getDatabase, h, IsNotFound,
      World.record, Second, List.filter_append, Call.isMutation]
  · simp only [getDatabase] at hdb
    simp only [getSecret, World.record] at hsec
    rcases hconn with hpg | ⟨hpg, hmy⟩
    · simp [reconcileInstance, getDatabaseSpec, hcfg, hclient, getDatabase, hdb, hpg,
        readConnectionURI, hval, hfrom, getSecret, hsec, IsNotFound,
        World.record, Second, List.filter_append, Call.isMutation]
    · simp [reconcileInstance, getDatabaseSpec, hcfg, hclient, getDatabase, hdb, hpg, hmy,
        readConnectionURI, hval, hfrom, getSecret, hsec, IsNotFound,
        World.record, Second, List.filter_append, Call.isMutation]

/-- C7 at concrete Tables: the Database `nodb` does not exist; the Database `db2` exists and
its secret does not. -/
theorem reconcileInstance_requeues_when_not_ready_witness :
    (reconcileInstance env0 (worldWith [] [] [] []) (tableWith "nodb" [])).2
        = ({ requeue := true, requeueAfter := 10 * Second }, none) ∧
      (reconcileInstance env0 (worldWith [] [] [] []) (tableWith "db2" [])).2
        = ({ requeue := true, requeueAfter := 10 * Second }, none) :=
  ⟨(reconcileInstance_requeues_when_not_ready env0 (worldWith [] [] [] [])
      (tableWith "nodb" []) rfl rfl (Or.inl (by decide))).1,
   (reconcileInstance_requeues_when_not_ready env0 (worldWith [] [] [] [])
      (tableWith "db2" []) rfl rfl
      (Or.inr ⟨db2, db2Connection, db2Ref,
        by decide, Or.inl (by decide), by decide, by decide, by decide⟩)).1⟩

/-! ## C8: failure of the secret read -/

/-- C8, the claim as stated fails: the Database `db2` exists and the read of its connection
secret fails for a reason other than the secret not existing; `readConnectionURI` returns the
wrapped failure, yet `getDatabaseSpec` returns `(nil, nil)` and `reconcileInstance` returns the
10 second requeue with a nil error. -/
theorem secret_access_failure_reported_not_ready :
    (getSecret envSecretDown (worldWith [] [] [] []) "default" "db2-secret").2
        = .error .failure ∧
      IsNotFound Error.failure = false ∧
      (getDatabaseSpec envSecretDown (worldWith [] [] [] []) "default" "db2").2 = .ok none ∧
      (reconcileInstance envSecretDown (worldWith [] [] [] []) (tableWith "db2" [])).2
        = ({ requeue := true, requeueAfter := 10000000000 }, none) := by
  decide

/-- C8 (amended): when the Database is found and reading the connection URI of its engine
(Postgres, else MySQL) fails because the read of the referenced secret fails for a reason
other than the secret not existing, `readConnectionURI` returns that failure wrapped as an
error, `getDatabaseSpec` returns `(nil, nil)`, that is not ready, and `reconcileInstance`
returns the 10 second requeue with a nil error. -/
theorem secret_access_failure_requeues (env : Env) (w : World) (inst : Table)
    (database : Database) (conn : EngineConnection) (ref : SecretKeyRef) (e : Error)
    (hcfg : env.getConfig = none) (hclient : env.newDatabasesClient = none)
    (hdb : (getDatabase env w inst.ns inst.spec.database).2 = .ok database)
    (hconn : database.connection.postgres = some conn ∨
      (database.connection.postgres = none ∧ database.connection.mysql = some conn))
    (hval : conn.uri.value = "")
    (hfrom : conn.uri.valueFrom = some { secretKeyRef := some ref })
    (hsec : (getSecret env w database.ns ref.name).2 = .error e)
    (hother : IsNotFound e = false) :
    (readConnectionURI env w database.ns conn.uri).2
        = .error (.wrap e "failed to get existing connection secret") ∧
      (getDatabaseSpec env w inst.ns inst.spec.database).2 = .ok none ∧
      (reconcileInstance env w inst).2
        = ({ requeue := true, requeueAfter := 10000000000 }, none) := by
  simp only [getDatabase] at hdb
  simp only [getSecret, World.record] at hsec
  rcases hconn with hpg | ⟨hpg, hmy⟩
  · simp [reconcileInstance, getDatabaseSpec, hcfg, hclient, getDatabase, hdb, hpg,
      readConnectionURI, hval, hfrom, getSecret, hsec, hother, World.record, Second]
  · simp [reconcileInstance, getDatabaseSpec, hcfg, hclient, getDatabase, hdb, hpg, hmy,
      readConnectionURI, hval, hfrom, getSecret, hsec, hother, World.record, Second]

/-- C8, the amended statement at the Database `db2` with a store whose reads of secrets
fail. -/
theorem secret_access_failure_requeues_witness :
    (readConnectionURI envSecretDown (worldWith [] [] [] []) "default" db2Connection.uri).2
        = .error (.wrap .failure "failed to get existing connection secret") ∧
      (reconcileInstance envSecretDown (worldWith [] [] [] []) (tableWith "db2" [])).2
        = ({ requeue := true, requeueAfter := 10000000000 }, none) :=
  have h := secret_access_failure_requeues envSecretDown (worldWith [] [] [] [])
    (tableWith "db2" []) db2 db2Connection db2Ref Error.failure rfl rfl
    (by decide) (Or.inl (by decide)) (by decide) (by decide) (by decide) (by decide)
  ⟨h.1, h.2.2⟩

/-! ## C9: the output normalizer -/

/-- C9, the code at the failing input: two statements separated by two blank lines (three
newlines) come out separated by one blank line, so the recorded text still has two adjacent
newlines; a single pass of `strings.Replace` halves a run of newlines and does not collapse
it. -/
theorem normalize_keeps_adjacent_newlines :
    normalize "ALTER TABLE x;\n\n\nALTER TABLE y;\n" = "ALTER TABLE x;\n\nALTER TABLE y;\n" ∧
      normalize "ALTER TABLE x;\n\nALTER TABLE y;\n" = "ALTER TABLE x;\nALTER TABLE y;\n" := by
  decide

/-! ## C10: create if absent -/

/-- C10: create-if-absent of `ensureTableConfigMap` and of `ensureTablePod`, once the desired
object has been built.  If the lookup of the desired name and namespace finds an object, the
calls are the builder and the lookup only (no create, update or delete), the store content is
unchanged and nil is returned.  If the lookup reports not-found, the calls are the builder, the
lookup and one create of the desired object, and nil is returned exactly when that create
succeeds.  If the lookup fails otherwise, the calls are the builder and the lookup only and
the failure is returned wrapped as an error. -/
theorem ensure_create_if_absent (env : Env) (w : World) (database : Database) (table : Table)
    (plan : Option TablePlan) (isPlan : Bool) (d : ConfigMap) (dp : Pod)
    (hd : desiredConfigMap env database table plan = .ok d)
    (hdp : desiredPod env database table isPlan = .ok dp) :
    ((∀ o, (getConfigMap env w d.ns d.name).2 = .ok o →
        ensureTableConfigMap env w database table plan
          = (⟨w.cluster,
              w.calls ++ [configMapBuilderCall table plan, .getConfigMap d.ns d.name]⟩,
             none)) ∧
      ((getConfigMap env w d.ns d.name).2 = .error .notFound →
        (ensureTableConfigMap env w database table plan).1
          = (createConfigMap env ⟨w.cluster,
              w.calls ++ [configMapBuilderCall table plan, .getConfigMap d.ns d.name]⟩ d).1 ∧
        (ensureTableConfigMap env w database table plan).1.calls
          = w.calls ++ [configMapBuilderCall table plan, .getConfigMap d.ns d.name,
              .createConfigMap d] ∧
        ((ensureTableConfigMap env w database table plan).2 = none ↔
          (createConfigMap env ⟨w.cluster,
              w.calls ++ [configMapBuilderCall table plan, .getConfigMap d.ns d.name]⟩ d).2
            = none)) ∧
      (∀ e, (getConfigMap env w d.ns d.name).2 = .error e → IsNotFound e = false →
        ensureTableConfigMap env w database table plan
          = (⟨w.cluster,
              w.calls ++ [configMapBuilderCall table plan, .getConfigMap d.ns d.name]⟩,
             some (.wrap e "failed to get existing configmap")))) ∧
    ((∀ o, (getPod env w dp.ns dp.name).2 = .ok o →
        ensureTablePod env w database table isPlan
          = (⟨w.cluster, w.calls ++ [podBuilderCall table isPlan, .getPod dp.ns dp.name]⟩,
             none)) ∧
      ((getPod env w dp.ns dp.name).2 = .error .notFound →
        (ensureTablePod env w database table isPlan).1
          = (createPod env ⟨w.cluster,
              w.calls ++ [podBuilderCall table isPlan, .getPod dp.ns dp.name]⟩ dp).1 ∧
        (ensureTablePod env w database table isPlan).1.calls
          = w.calls ++ [podBuilderCall table isPlan, .getPod dp.ns dp.name, .createPod dp] ∧
        ((ensureTablePod env w database table isPlan).2 = none ↔
          (createPod env ⟨w.cluster,
              w.calls ++ [podBuilderCall table isPlan, .getPod dp.ns dp.name]⟩ dp).2 = none)) ∧
      (∀ e, (getPod env w dp.ns dp.name).2 = .error e → IsNotFound e = false →
        ensureTablePod env w database table isPlan
          = (⟨w.cluster, w.calls ++ [podBuilderCall table isPlan, .getPod dp.ns dp.name]⟩,
             some (.wrap e "failed to get existing pod object")))) := by
  have hcm : ensureTableConfigMap env w database table plan
      = (match (getConfigMap env ⟨w.cluster, w.calls ++ [configMapBuilderCall table plan]⟩
            d.ns d.name) with
        | (w2, .error err) =>
          if IsNotFound err then
            match createConfigMap env w2 d with
            | (w3, some err1) => (w3, some (Error.wrap err1 "failed to create configmap"))
            | (w3, none) => (w3, Wrap none "failed to get existing configmap")
          else (w2, Wrap (some err) "failed to get existing configmap")
        | (w2, .ok _) => (w2, none)) := by
    cases plan <;> simp only [desiredConfigMap] at hd <;>
      simp [ensureTableConfigMap, hd, World.record, configMapBuilderCall]
  have hpod : ensureTablePod env w database table isPlan
      = (match (getPod env ⟨w.cluster, w.calls ++ [podBuilderCall table isPlan]⟩
            dp.ns dp.name) with
        | (w2, .error err) =>
          if IsNotFound err then
            match createPod env w2 dp with
            | (w3, some err1) =>
              (w3, some (Error.wrap err1 "failed to create table migration pod"))
            | (w3, none) => (w3, none)
          else (w2, Wrap (some err) "failed to get existing pod object")
        | (w2, .ok _) => (w2, none)) := by
    cases isPlan <;> simp [desiredPod] at hdp <;>
      simp [ensureTablePod, hdp, World.record, podBuilderCall]
  refine ⟨⟨?_, ?_, ?_⟩, ?_, ?_, ?_⟩
  · intro o ho
    simp only [getConfigMap] at ho
    rw [hcm]
    simp [getConfigMap, ho, World.record]
  · intro hnf
    simp only [getConfigMap] at hnf
    rw [hcm]
    simp only [getConfigMap, hnf, World.record, IsNotFound, if_true, List.append_assoc,
      List.singleton_append]
    unfold createConfigMap
    by_cases hf : env.fails (Call.createConfigMap d) = true
    · simp [hf, World.record]
    · simp only [hf]
      generalize Cluster.findConfigMap _ d.ns d.name = fo
      rcases fo with _ | o <;> simp [World.record, Wrap]
  · intro e he hne
    simp only [getConfigMap] at he
    rw [hcm]
    simp [getConfigMap, he, hne, World.record, Wrap]
  · intro o ho
    simp only [getPod] at ho
    rw [hpod]
    simp [getPod, ho, World.record]
  · intro hnf
    simp only [getPod] at hnf
    rw [hpod]
    simp only [getPod, hnf, World.record, IsNotFound, if_true, List.append_assoc,
      List.singleton_append]
    unfold createPod
    by_cases hf : env.fails (Call.createPod dp) = true
    · simp [hf, World.record]
    · simp only [hf]
      generalize Cluster.findPod _ dp.ns dp.name = fo
      rcases fo with _ | o <;> simp [World.record]
  · intro e he hne
    simp only [getPod] at he
    rw [hpod]
    simp [getPod, he, hne, World.record, Wrap]

/-- C10 at concrete inputs: with an empty store the plan config map and the plan pod are
created; with the plan config map in the store nothing is written. -/
theorem ensure_create_if_absent_witness :
    (ensureTableConfigMap env0 (worldWith [] [] [] []) db1 (tableWith "db1" []) none).1.calls
        = [.planConfigMap (tableWith "db1" []), .getConfigMap "default" "t1-plan",
           .createConfigMap { name := "t1-plan", ns := "default", data := [] }] ∧
      ensureTableConfigMap env0
          (worldWith [] [] [{ name := "t1-plan", ns := "default", data := [] }] [])
          db1 (tableWith "db1" []) none
        = (⟨(worldWith [] [] [{ name := "t1-plan", ns := "default", data := [] }] []).cluster,
            [.planConfigMap (tableWith "db1" []), .getConfigMap "default" "t1-plan"]⟩, none) :=
  ⟨((ensure_create_if_absent env0 (worldWith [] [] [] []) db1 (tableWith "db1" []) none true
      { name := "t1-plan", ns := "default", data := [] }
      { name := "t1-plan", ns := "default",
        labels := [("schemahero-role", "plan"), ("schemahero-name", "t1"),
                   ("schemahero-namespace", "default")],
        volumes := [{ name := "specs", configMap := some "t1-plan" }],
        phase := .pending }
      (by decide) (by decide)).1.2.1 (by decide)).2.1,
   (ensure_create_if_absent env0
      (worldWith [] [] [{ name := "t1-plan", ns := "default", data := [] }] [])
      db1 (tableWith "db1" []) none true
      { name := "t1-plan", ns := "default", data := [] }
      { name := "t1-plan", ns := "default",
        labels := [("schemahero-role", "plan"), ("schemahero-name", "t1"),
                   ("schemahero-namespace", "default")],
        volumes := [{ name := "specs", configMap := some "t1-plan" }],
        phase := .pending }
      (by decide) (by decide)).1.1 { name := "t1-plan", ns := "default", data := [] }
      (by decide)⟩

/-! ## C11: unrelated and unfinished pods -/

/-- C11: for a pod without the label `schemahero-role`, or whose role is neither `table` nor
`plan`, or whose phase is not succeeded, `reconcilePod` returns the empty result and no error
and the world is the one it started from: the store content is unchanged and no call at all
has been made, so no log read, no Table update and no deletion of a pod or ConfigMap. -/
theorem reconcilePod_leaves_other_pods_alone (env : Env) (w : World) (pod : Pod)
    (h : pod.labels.lookup "schemahero-role" = none ∨
      (∃ role, pod.labels.lookup "schemahero-role" = some role ∧
        role ≠ "table" ∧ role ≠ "plan") ∨
      pod.phase ≠ PodPhase.succeeded) :
    reconcilePod env w pod = (w, Result.empty, none) ∧
      (reconcilePod env w pod).1.cluster = w.cluster ∧
      (reconcilePod env w pod).1.calls = w.calls := by
  have heq : reconcilePod env w pod = (w, Result.empty, none) := by
    unfold reconcilePod
    rcases h with h | ⟨role, hrole, hnt, hnp⟩ | h
    · simp [h]
    · simp [hrole, hnt, hnp]
    · rcases pod.labels.lookup "schemahero-role" with _ | role <;> dsimp only
      by_cases hr : (role != "table" && role != "plan") = true
      · simp [hr]
      · simp [hr, h]
  rw [heq]
  exact ⟨rfl, rfl, rfl⟩

/-- C11 at three concrete pods: one without role label, one of another role, and the plan
pod of the Table `t1` while it is running; the store holds the pods and their config map. -/
theorem reconcilePod_leaves_other_pods_alone_witness :
    reconcilePod env0 (worldWith [tableWith "db1" []] [] [configMapPlan] [podForeign]) podForeign
        = (worldWith [tableWith "db1" []] [] [configMapPlan] [podForeign], Result.empty, none) ∧
      reconcilePod env0 (worldWith [tableWith "db1" []] [] [configMapPlan] [podOtherRole])
          podOtherRole
        = (worldWith [tableWith "db1" []] [] [configMapPlan] [podOtherRole],
           Result.empty, none) ∧
      reconcilePod env0 (worldWith [tableWith "db1" []] [] [configMapPlan] [podPlanRunning])
          podPlanRunning
        = (worldWith [tableWith "db1" []] [] [configMapPlan] [podPlanRunning],
           Result.empty, none) :=
  ⟨(reconcilePod_leaves_other_pods_alone env0
      (worldWith [tableWith "db1" []] [] [configMapPlan] [podForeign]) podForeign
      (Or.inl (by decide))).1,
   (reconcilePod_leaves_other_pods_alone env0
      (worldWith [tableWith "db1" []] [] [configMapPlan] [podOtherRole]) podOtherRole
      (Or.inr (Or.inl ⟨"database", by decide, by decide, by decide⟩))).1,
   (reconcilePod_leaves_other_pods_alone env0
      (worldWith [tableWith "db1" []] [] [configMapPlan] [podPlanRunning]) podPlanRunning
      (Or.inr (Or.inr (by decide)))).1⟩

/-! ## C12: the inline value wins -/

/-- C12: for a credential descriptor whose inline value is not empty, `readConnectionURI`
returns exactly that value and no error, and the world is the one it started from, so no
secret has been read; nothing is assumed on `valueFrom`. -/
theorem readConnectionURI_inline_value_wins (env : Env) (w : World) (ns : String)
    (valueOrValueFrom : ValueOrValueFrom) (h : valueOrValueFrom.value ≠ "") :
    readConnectionURI env w ns valueOrValueFrom = (w, .ok valueOrValueFrom.value) ∧
      (readConnectionURI env w ns valueOrValueFrom).1.calls = w.calls := by
  have heq : readConnectionURI env w ns valueOrValueFrom = (w, .ok valueOrValueFrom.value) := by
    unfold readConnectionURI
    simp [h]
  rw [heq]
  exact ⟨rfl, rfl⟩

/-- C12 at a descriptor with the inline value `v` and a reference to a secret, in a store
whose reads of secrets fail. -/
theorem readConnectionURI_inline_value_wins_witness :
    inlineAndReference.valueFrom = some { secretKeyRef := some db2Ref } ∧
      readConnectionURI envSecretDown (worldWith [] [] [] []) "default" inlineAndReference
        = (worldWith [] [] [] [], .ok "v") :=
  ⟨rfl, (readConnectionURI_inline_value_wins envSecretDown (worldWith [] [] [] []) "default"
    inlineAndReference (by decide)).1⟩

end Schemahero
